import Mathlib

/-!
# Verification of the codexia event-stream reconciliation pipeline

Shallow embedding of the session event reducer (`src/hooks/useCodexEvents.ts`)
and the conversation store (`src/stores/ConversationStore.ts`) of the codexia
repository, together with proofs of the specified properties.

Conventions used throughout the embedding:
* JavaScript truthiness of a string (`if (s)`) is embedded as `s ≠ ""`;
  an absent (`undefined`) optional string is `Option.none`, and
  `if (x)` on an optional string is false for both `none` and `some ""`.
* JavaScript object-spread record updates are embedded as explicit record
  updates; template literals are embedded as string concatenation.
* `Date.now()` timestamps are embedded as a fixed `now : Nat` carried in the
  state: all claims under verification are timestamp-independent.
* The insertion-ordered `Set` used for deduplication is embedded as a
  `List String` with the most recent key at the head; the source keeps
  insertion order (oldest first) and on overflow retains `slice(-500)`,
  the newest 500 keys, which is `take 500` in the newest-first embedding.
  The retained set of keys is identical.
-/

namespace Codexia

/-- Roles of a transcript entry (`src/types/chat`): user, assistant, system
or approval. -/
inductive Role where
  | user
  | assistant
  | system
  | approval
deriving DecidableEq, Repr

/-- One step of a structured plan payload (`plan_update` events). -/
structure PlanStep where
  step : String
  status : String
deriving DecidableEq, Repr

/-- Structured plan payload carried by plan_update transcript entries. -/
structure PlanPayload where
  explanation : Option String
  plan : List PlanStep
deriving DecidableEq, Repr

/-- Optional per-change detail of an apply-patch approval payload: the
source reads `content` and `unified_diff` fields of the change object. -/
structure ChangeDetail where
  content : Option String
  unified_diff : Option String
deriving DecidableEq, Repr

/-- One file change of an `apply_patch_approval_request` payload.  The source
(`makeChangeSummary`) recognizes `add`, `remove`, `modify` and
`update {unified_diff, move_path}` shapes and otherwise falls back to a JSON
rendering of the unknown object; the unknown shape is embedded as `other`
carrying its JSON text. -/
inductive FileChange where
  | add (d : ChangeDetail)
  | remove (d : ChangeDetail)
  | modify (d : ChangeDetail)
  | update (unified_diff : Option String) (move_path : Option String)
      (content : Option String)
  | other (json : String)
deriving DecidableEq, Repr

/-- Approval request data attached to approval transcript entries
(`src/types/codex`, as populated by `useCodexEvents.ts`).  The TS interface
has optional fields per approval kind; they are embedded as options on one
structure. -/
structure ApprovalRequest where
  id : String
  kind : String
  command : Option String := none
  cwd : Option String := none
  call_id : Option String := none
  patch : Option String := none
  files : Option (List String) := none
  changes : Option (List (String × FileChange)) := none
  reason : Option String := none
  grant_root : Option String := none
deriving DecidableEq, Repr

/-- A transcript entry (`ChatMessage` of `src/types/chat`, as used by the
hook and the store).  `isStreaming` is a boolean flag that is absent
(= `undefined`, falsy) on most entries; absent is embedded as `false`. -/
structure ChatMessage where
  id : String
  role : Role
  content : String
  title : Option String := none
  timestamp : Nat
  isStreaming : Bool := false
  messageType : Option String := none
  eventType : Option String := none
  plan : Option PlanPayload := none
  approvalRequest : Option ApprovalRequest := none
deriving DecidableEq, Repr

/-- A conversation of the `ConversationStore` (`src/stores/ConversationStore.ts`).
`isLoading` is set by `setSessionLoading` and absent (falsy) initially;
absent is embedded as `false`. -/
structure Conversation where
  id : String
  title : String
  messages : List ChatMessage
  createdAt : Nat
  updatedAt : Nat
  isFavorite : Bool := false
  projectRealpath : Option String := none
  isLoading : Bool := false
  codexSessionId : Option String := none
  resumePath : Option String := none
deriving DecidableEq, Repr

/-- The state of the `ConversationStore` (plus the current folder of the
`FolderStore`, which `createConversation` reads). -/
structure StoreState where
  conversations : List Conversation
  currentConversationId : Option String
  pendingUserInput : Option String
  pendingNewConversation : Bool
  currentFolder : Option String
deriving DecidableEq, Repr

/-- JS `String.prototype.trim` (strip whitespace at both ends), implemented
over the character list so that it is kernel-computable. -/
def jsTrim (s : String) : String :=
  String.mk
    (((s.data.dropWhile Char.isWhitespace).reverse.dropWhile
      Char.isWhitespace).reverse)

/-- JS `String.prototype.startsWith`, implemented over the character list so
that it is kernel-computable. -/
def jsStartsWith (s pre : String) : Bool :=
  pre.data.isPrefixOf s.data

/-- JS `String.prototype.toLowerCase`, implemented over the character list
so that it is kernel-computable. -/
def jsToLower (s : String) : String :=
  String.mk (s.data.map Char.toLower)

/-- Split a character list at newline characters; always returns at least
one (possibly empty) segment. -/
def splitNlChars : List Char → List (List Char)
  | [] => [[]]
  | c :: rest =>
      let r := splitNlChars rest
      if c = '\n' then [] :: r
      else
        match r with
        | h :: t => (c :: h) :: t
        | [] => [[c]]

/-- Split a string at newline characters (the semantics of
`String.splitOn "\n"`), implemented over the character list so that it is
kernel-computable. -/
def splitOnNl (s : String) : List String :=
  (splitNlChars s.data).map String.mk

/-- The empty initial store state (`ConversationStore.ts`, initial state). -/
def initialStore : StoreState :=
  { conversations := []
    currentConversationId := none
    pendingUserInput := none
    pendingNewConversation := false
    currentFolder := none }

/-- `generateTitle` of `ConversationStore.ts`: title from the first user
message, trimmed and truncated to 50 characters with an ellipsis when
longer. -/
def generateTitle (messages : List ChatMessage) : String :=
  match messages.find? (fun m => m.role = Role.user) with
  | some m =>
      let content := jsTrim m.content
      if 50 < content.length then content.take 50 ++ "..." else content
  | none => "New Conversation"

/-- `createConversation` of `ConversationStore.ts`.  `sessionId` and `title`
are optional; the source computes `sessionId || generated` and
`title || "New Conversation"` with JS truthiness, so an empty string behaves
like an absent argument.  `genId` stands for the `generateUniqueId()` call
used when no session id is given.  Returns the new store state and the id
the source returns. -/
def createConversation (s : StoreState) (title : Option String)
    (sessionId : Option String) (genId : String) (now : Nat) :
    StoreState × String :=
  let id :=
    match sessionId with
    | some sid => if sid = "" then "codex-event-" ++ genId else sid
    | none => "codex-event-" ++ genId
  if (s.conversations.find? (fun c => c.id = id)).isSome then
    ({ s with currentConversationId := some id }, id)
  else
    let t :=
      match title with
      | some t => if t = "" then "New Conversation" else t
      | none => "New Conversation"
    let newConversation : Conversation :=
      { id := id
        title := t
        messages := []
        createdAt := now
        updatedAt := now
        isFavorite := false
        projectRealpath := s.currentFolder }
    ({ s with
        conversations := newConversation :: s.conversations
        currentConversationId := some id
        pendingNewConversation := true }, id)

/-- `addMessage` of `ConversationStore.ts`: append the message to the
matching conversation and re-derive the title while it is still the default
"New Conversation". -/
def addMessage (s : StoreState) (conversationId : String)
    (message : ChatMessage) (now : Nat) : StoreState :=
  { s with
    conversations := s.conversations.map (fun conv =>
      if conv.id = conversationId then
        let updatedMessages := conv.messages ++ [message]
        let newTitle :=
          if conv.title = "New Conversation" then generateTitle updatedMessages
          else conv.title
        { conv with
            messages := updatedMessages
            title := newTitle
            updatedAt := now }
      else conv) }

/-- A partial `ChatMessage` update (`Partial<ChatMessage>` restricted to the
fields the source actually updates: the streaming sink updates `content`,
`exec_command_end` updates `title`, `content` and `timestamp`). -/
structure MessageUpdate where
  title : Option String := none
  content : Option String := none
  timestamp : Option Nat := none
deriving DecidableEq, Repr

/-- Object-spread application of a partial update (`{ ...msg, ...updates }`). -/
def applyUpdate (m : ChatMessage) (u : MessageUpdate) : ChatMessage :=
  { m with
    title := match u.title with | some t => some t | none => m.title
    content := u.content.getD m.content
    timestamp := u.timestamp.getD m.timestamp }

/-- `updateMessage` of `ConversationStore.ts`: apply a partial update to the
message with the given id in the given conversation. -/
def updateMessage (s : StoreState) (conversationId messageId : String)
    (u : MessageUpdate) (now : Nat) : StoreState :=
  { s with
    conversations := s.conversations.map (fun conv =>
      if conv.id = conversationId then
        { conv with
            messages := conv.messages.map (fun m =>
              if m.id = messageId then applyUpdate m u else m)
            updatedAt := now }
      else conv) }

/-- `truncateMessagesFrom` of `ConversationStore.ts`: drop the first message
with the given id and everything after it; leave the conversation unchanged
when no message matches (`findIndex` returns -1). -/
def truncateMessagesFrom (s : StoreState) (conversationId fromMessageId : String)
    (now : Nat) : StoreState :=
  { s with
    conversations := s.conversations.map (fun conv =>
      if conv.id = conversationId then
        match conv.messages.findIdx? (fun m => m.id = fromMessageId) with
        | some messageIndex =>
            { conv with
                messages := conv.messages.take messageIndex
                updatedAt := now }
        | none => conv
      else conv) }

/-- `setSessionLoading` of `ConversationStore.ts`. -/
def setSessionLoading (s : StoreState) (sessionId : String) (loading : Bool) :
    StoreState :=
  { s with
    conversations := s.conversations.map (fun conv =>
      if conv.id = sessionId then { conv with isLoading := loading } else conv) }

/-- `updateConversationTitle` of `ConversationStore.ts`: an explicit user
rename, which sets the title unconditionally. -/
def updateConversationTitle (s : StoreState) (id title : String) (now : Nat) :
    StoreState :=
  { s with
    conversations := s.conversations.map (fun conv =>
      if conv.id = id then { conv with title := title, updatedAt := now }
      else conv) }

/-- `setResumeMeta` of `ConversationStore.ts`: sets both resume fields from
the given meta object (an absent meta field overwrites with `undefined`). -/
def setResumeMeta (s : StoreState) (conversationId : String)
    (codexSessionId resumePath : Option String) (now : Nat) : StoreState :=
  { s with
    conversations := s.conversations.map (fun conv =>
      if conv.id = conversationId then
        { conv with
            codexSessionId := codexSessionId
            resumePath := resumePath
            updatedAt := now }
      else conv) }

/-- The normalized event payloads handled by `handleCodexEvent` in
`src/hooks/useCodexEvents.ts` (one constructor per `msg.type` case of the
switch, plus `other` for unhandled kinds).  Wire-level normalization quirks
that only widen a field are embedded at the natural type: a command that may
arrive as a single string is embedded as the normalized `List String`, and
`changes` is embedded in its object form (file path to change map). -/
inductive MsgPayload where
  | session_configured (session_id : String)
  | task_started
  | task_complete
  | turn_complete
  | agent_message (message : String)
  | agent_reasoning (text reasoning content : Option String)
  | agent_reasoning_raw_content (text reasoning content : Option String)
  | agent_reasoning_delta
  | agent_reasoning_raw_content_delta
  | plan_update (explanation : Option String) (plan : List PlanStep)
  | mcp_tool_call_begin (tool : Option String)
  | mcp_tool_call_end
  | patch_apply_begin
  | patch_apply_end
  | web_search_begin (query : String)
  | web_search_end
  | agent_message_delta (delta : String)
  | exec_approval_request (command : List String) (cwd : String)
      (call_id : Option String)
  | patch_approval_request (patch : Option String) (files : Option (List String))
  | apply_patch_approval_request (call_id : Option String)
      (changes : Option (List (String × FileChange))) (reason : Option String)
      (grant_root : Option String)
  | error (message : String)
  | shutdown_complete
  | background_event
  | turn_diff (unified_diff : Option String)
  | exec_command_begin (command : List String) (cwd : String)
  | exec_command_output_delta
  | exec_command_end (exit_code : Int) (stdout stderr : Option String)
  | turn_aborted (reason : Option String)
  | token_count
  | other (typeName : String)
deriving DecidableEq, Repr

/-- The wire name of a payload kind (`msg.type`), used for the dedup key and
the `eventType` field of transcript entries. -/
def msgTypeName : MsgPayload → String
  | .session_configured _ => "session_configured"
  | .task_started => "task_started"
  | .task_complete => "task_complete"
  | .turn_complete => "turn_complete"
  | .agent_message _ => "agent_message"
  | .agent_reasoning _ _ _ => "agent_reasoning"
  | .agent_reasoning_raw_content _ _ _ => "agent_reasoning_raw_content"
  | .agent_reasoning_delta => "agent_reasoning_delta"
  | .agent_reasoning_raw_content_delta => "agent_reasoning_raw_content_delta"
  | .plan_update _ _ => "plan_update"
  | .mcp_tool_call_begin _ => "mcp_tool_call_begin"
  | .mcp_tool_call_end => "mcp_tool_call_end"
  | .patch_apply_begin => "patch_apply_begin"
  | .patch_apply_end => "patch_apply_end"
  | .web_search_begin _ => "web_search_begin"
  | .web_search_end => "web_search_end"
  | .agent_message_delta _ => "agent_message_delta"
  | .exec_approval_request _ _ _ => "exec_approval_request"
  | .patch_approval_request _ _ => "patch_approval_request"
  | .apply_patch_approval_request _ _ _ _ => "apply_patch_approval_request"
  | .error _ => "error"
  | .shutdown_complete => "shutdown_complete"
  | .background_event => "background_event"
  | .turn_diff _ => "turn_diff"
  | .exec_command_begin _ _ => "exec_command_begin"
  | .exec_command_output_delta => "exec_command_output_delta"
  | .exec_command_end _ _ _ => "exec_command_end"
  | .turn_aborted _ => "turn_aborted"
  | .token_count => "token_count"
  | .other t => t

/-- A backend event (`CodexEvent` of `src/types/codex`): correlation id,
optional session id, and the typed payload. -/
structure CodexEvent where
  id : String
  session_id : Option String
  msg : MsgPayload
deriving DecidableEq, Repr

/-- Template interpolation of a possibly absent string: in
`` `${event.session_id}` `` an absent value prints as "undefined". -/
def optInterp : Option String → String
  | some s => s
  | none => "undefined"

/-- The dedup identity key of an event:
`` `${event.id}-${event.msg.type}-${event.session_id}` ``. -/
def eventKey (e : CodexEvent) : String :=
  e.id ++ "-" ++ msgTypeName e.msg ++ "-" ++ optInterp e.session_id

/-- Insert a key into the newest-first dedup list and apply the eviction
policy of the source: when the set grows beyond 1000 entries, keep only the
most recent 500 (`Array.from(set).slice(-500)`). -/
def dedupAdd (key : String) (seen : List String) : List String :=
  if 1000 < (key :: seen).length then (key :: seen).take 500 else key :: seen

/-- JS truthiness of a nullable string ref (`if (ref.current)`):
false for `null`/`undefined` and for the empty string. -/
def refTruthy : Option String → Bool
  | some s => s ≠ ""
  | none => false

/-- The session-routing alias: a hook session id of the form
`codex-event-<uuid>` also accepts the bare `<uuid>`
(`sessionId.replace('codex-event-', '')` under a `startsWith` guard). -/
def rawSessionIdOf (sessionId : String) : String :=
  if jsStartsWith sessionId "codex-event-" then sessionId.drop 12 else sessionId

/-- The routing rule of `handleCodexEvent`: an event with a truthy
`session_id` is processed only when it matches the hook session id or its
raw alias; events without a session id are broadcast. -/
def routesTo (sessionId : String) (e : CodexEvent) : Bool :=
  match e.session_id with
  | none => true
  | some s => if s = "" then true else (s = sessionId || s = rawSessionIdOf sessionId)

/-- Closure state of `createStreamSink` (source, `useCodexEvents.ts` lines
56-77): the target message id and the accumulated content so far. -/
structure StreamSink where
  messageId : String
  accumulatedContent : String
deriving DecidableEq, Repr

/-- The accumulation step of the sink's `insertLines` callback (source):
newly inserted lines are joined with newlines and appended to the
accumulated content with a newline separator (no separator when the
accumulator is still empty). -/
def sinkAppend (acc newContent : String) : String :=
  if acc = "" then newContent else acc ++ "\n" ++ newContent

/-- `insertLines` of the sink created by `createStreamSink` (source): fold
the new lines into the accumulated content and write the accumulated content
back to the target message via `updateMessage`. -/
def sinkInsertLines (store : StoreState) (sessionId : String)
    (sink : StreamSink) (lines : List String) (now : Nat) :
    StreamSink × StoreState :=
  let newContent := String.intercalate "\n" lines
  let acc := sinkAppend sink.accumulatedContent newContent
  ({ sink with accumulatedContent := acc },
    updateMessage store sessionId sink.messageId { content := some acc } now)

/-- Modelled from the spec: `src/utils/streamController.ts` is absent from
the sources (only its import and call sites are present), so the Stream
Controller is modelled from spec §4.3.  States are Idle and Streaming with
an open buffer and an attached sink. -/
inductive StreamCtrl where
  | idle
  | streaming (sink : StreamSink) (buffer : String)
deriving DecidableEq, Repr

/-- Modelled from the spec (§4.3 `begin`): Idle to Streaming with an empty
buffer; a second `begin` while already Streaming is a no-op. -/
def ctrlBegin (ctrl : StreamCtrl) (sink : StreamSink) : StreamCtrl :=
  match ctrl with
  | .idle => .streaming sink ""
  | st => st

/-- Modelled from the spec (§4.3 `pushAndMaybeCommit`): the delta is
appended to the accumulated buffer and the newly available complete content
is computed from the accumulated buffer, not just from the delta: the
newline-completed lines of the buffer are handed to the sink and the
remaining partial line is kept buffered.  Returns the lines to insert (if
any newly completed) and the new buffer. -/
def pushCore (buffer delta : String) : Option (List String) × String :=
  let buffer' := buffer ++ delta
  let parts := splitOnNl buffer'
  if 2 ≤ parts.length then (some parts.dropLast, parts.getLastD "")
  else (none, buffer')

/-- Modelled from the spec (§4.3): `pushAndMaybeCommit` on the controller;
only valid in Streaming (no-op in Idle). -/
def ctrlPush (ctrl : StreamCtrl) (store : StoreState) (sessionId delta : String)
    (now : Nat) : StreamCtrl × StoreState :=
  match ctrl with
  | .idle => (.idle, store)
  | .streaming sink buffer =>
      match pushCore buffer delta with
      | (some lines, buffer') =>
          let r := sinkInsertLines store sessionId sink lines now
          (.streaming r.1 buffer', r.2)
      | (none, buffer') => (.streaming sink buffer', store)

/-- Modelled from the spec (§4.3 `finalize`): Streaming to Idle; with
`commit = true` the remaining buffered partial line is flushed to the sink
so the buffered content remains as the final entry content, with
`commit = false` the uncommitted buffer is discarded.  Safe no-op when
already Idle. -/
def ctrlFinalize (ctrl : StreamCtrl) (store : StoreState) (sessionId : String)
    (commit : Bool) (now : Nat) : StreamCtrl × StoreState :=
  match ctrl with
  | .idle => (.idle, store)
  | .streaming sink buffer =>
      if commit && buffer ≠ "" then
        (.idle, (sinkInsertLines store sessionId sink [buffer] now).2)
      else (.idle, store)

/-- Modelled from the spec (§4.3 `clearAll`): forcibly reset to Idle,
dropping the buffer without firing sink callbacks. -/
def ctrlClearAll (_ : StreamCtrl) : StreamCtrl := .idle

/-- Modelled from the spec: `src/utils/genUniqueId.ts` is absent from the
sources; §3 only requires synthetic entry ids to be freshly generated, so
the id supply is embedded as a counter rendered injectively to a string. -/
def generateUniqueId (n : Nat) : String := "uid" ++ Nat.repr n

/-- The per-subscription state of `useCodexEvents`: the conversation store,
the stream controller, the mutable refs, the dedup set, the ephemeral
per-session turn-diff slot, a counter of emitted stop-streaming signals
(`onStopStreaming` invocations), the unique-id counter and the fixed clock. -/
structure HookState where
  store : StoreState
  streamController : StreamCtrl
  currentStreamingMessageId : Option String
  currentCommandMessageId : Option String
  currentCommandInfo : Option (List String × String)
  lastTurnDiff : Option String
  processedEventIds : List String
  turnDiffs : List (String × String)
  stopSignals : Nat
  nextId : Nat
  now : Nat
deriving DecidableEq, Repr

/-- The initial state of a freshly mounted `useCodexEvents` subscription. -/
def initialHookState (now : Nat) : HookState :=
  { store := initialStore
    streamController := .idle
    currentStreamingMessageId := none
    currentCommandMessageId := none
    currentCommandInfo := none
    lastTurnDiff := none
    processedEventIds := []
    turnDiffs := []
    stopSignals := 0
    nextId := 0
    now := now }

/-- Conversion applied by `addMessageToStore` (source, lines 36-50): the
spread copies `id`, `role`, `content`, `title`, `timestamp` and the truthy
optional fields, but not `isStreaming`, so the stored entry always has an
absent (false) `isStreaming` flag.  A `messageType`/`eventType` that is the
empty string is falsy and dropped by the `&&` spread. -/
def toStoreMessage (m : ChatMessage) : ChatMessage :=
  { m with
    isStreaming := false
    messageType := match m.messageType with | some "" => none | x => x
    eventType := match m.eventType with | some "" => none | x => x }

/-- `addMessageToStore` of `useCodexEvents.ts`: ensure a conversation with
the hook session id exists (creating it with title "New Chat" otherwise) and
append the converted message.  The `generateUniqueId()` argument of the
fallback conversation id is only consumed when the session id is falsy. -/
def addMessageToStore (s : HookState) (sessionId : String) (m : ChatMessage) :
    HookState :=
  let store :=
    if (s.store.conversations.find? (fun c => c.id = sessionId)).isSome then
      s.store
    else
      (createConversation s.store (some "New Chat") (some sessionId)
        (generateUniqueId s.nextId) s.now).1
  { s with store := addMessage store sessionId (toStoreMessage m) s.now }

/-- JS nullish coalescing `a ?? b`: the left value wins whenever it is
present, even when it is the empty string. -/
def orOpt (a b : Option String) : Option String :=
  match a with
  | some x => some x
  | none => b

/-- JS truthy-or on an optional string: `a || b` falls through to `b` when
`a` is absent or empty. -/
def jsOr (a : Option String) (b : String) : String :=
  match a with
  | some s => if s = "" then b else s
  | none => b

/-- Substring test (`String.prototype.includes`). -/
def strContainsSubstr (s pat : String) : Bool :=
  s.toList.tails.any (fun suffix => pat.toList.isPrefixOf suffix)

/-- The tool allow-list check of the `mcp_tool_call_begin` case:
`['read','edit','write','glob','grep'].some(t => toolName.toLowerCase().includes(t))`. -/
def toolAllowed (toolName : String) : Bool :=
  ["read", "edit", "write", "glob", "grep"].any
    (fun t => strContainsSubstr (jsToLower toolName) t)

/-- Display-only stand-in for `JSON.stringify(change, null, 2)` on a change
detail object (string escaping is not reproduced; no verified property
inspects this text). -/
def jsonStringifyDetail (d : ChangeDetail) : String :=
  let fields :=
    (match d.content with
      | some c => ["\"content\": \"" ++ c ++ "\""]
      | none => []) ++
    (match d.unified_diff with
      | some u => ["\"unified_diff\": \"" ++ u ++ "\""]
      | none => [])
  "\x7b\n  " ++ String.intercalate ",\n  " fields ++ "\n\x7d"

/-- `makeChangeSummary` of the `apply_patch_approval_request` case
(source, lines 341-366): render one file change as human-readable text. -/
def makeChangeSummary (file : String) (change : FileChange) : String :=
  match change with
  | .add d => "Add " ++ file ++ "\n" ++ jsOr d.content (jsOr d.unified_diff (jsonStringifyDetail d))
  | .remove d => "Remove " ++ file ++ "\n" ++ jsOr d.content (jsOr d.unified_diff (jsonStringifyDetail d))
  | .modify d => "Modify " ++ file ++ "\n" ++ jsOr d.content (jsOr d.unified_diff (jsonStringifyDetail d))
  | .update ud mp c =>
      let mv := match mp with
        | some m => if m = "" then "" else "Move to: " ++ m ++ "\n"
        | none => ""
      let diff := jsOr ud (jsOr c "")
      jsTrim ("Update " ++ file ++ "\n" ++ mv ++ diff)
  | .other json => file ++ "\n" ++ json

/-- Path relativization against the optional `grant_root` prefix
(the `rel` helper of the `apply_patch_approval_request` case). -/
def relPath (grant_root : Option String) (p : String) : String :=
  match grant_root with
  | some root =>
      if root ≠ "" && jsStartsWith p root then
        let trimmed := p.drop root.length
        if jsStartsWith trimmed "/" then trimmed.drop 1 else trimmed
      else p
  | none => p

/-- Update the per-session slot of the ephemeral store
(`useEphemeralStore.setTurnDiff`). -/
def setAssoc (k v : String) (l : List (String × String)) :
    List (String × String) :=
  (k, v) :: l.filter (fun p => p.1 ≠ k)

/-- The switch body of `handleCodexEvent` (source, lines 103-537),
dispatching one already-deduplicated, routed event.  The fire-and-forget
rollout-path lookup of the `session_configured` case is external
asynchronous I/O and has no synchronous state effect. -/
def dispatchEvent (sessionId : String) (s : HookState) (e : CodexEvent) :
    HookState :=
  match e.msg with
  | .session_configured backendSessionId =>
      if backendSessionId ≠ "" then
        { s with store :=
            setResumeMeta s.store sessionId (some backendSessionId) none s.now }
      else s
  | .task_started =>
      { s with
          store := setSessionLoading s.store sessionId true
          streamController := ctrlClearAll s.streamController
          currentStreamingMessageId := none }
  | .task_complete =>
      let s := { s with store := setSessionLoading s.store sessionId false }
      if refTruthy s.currentStreamingMessageId then
        let r := ctrlFinalize s.streamController s.store sessionId true s.now
        { s with streamController := r.1, store := r.2
                 currentStreamingMessageId := none }
      else s
  | .turn_complete =>
      let s := { s with store := setSessionLoading s.store sessionId false }
      if refTruthy s.currentStreamingMessageId then
        let r := ctrlFinalize s.streamController s.store sessionId true s.now
        { s with streamController := r.1, store := r.2
                 currentStreamingMessageId := none }
      else s
  | .agent_message message =>
      if message ≠ "" then
        if refTruthy s.currentStreamingMessageId then
          let r := ctrlFinalize s.streamController s.store sessionId false s.now
          { s with streamController := r.1, store := r.2
                   currentStreamingMessageId := none }
        else s
      else s
  | .agent_reasoning text reasoning content =>
      match orOpt text (orOpt reasoning content) with
      | some rc =>
          if rc ≠ "" then
            addMessageToStore
              { s with nextId := s.nextId + 1 } sessionId
              { id := sessionId ++ "-reasoning-" ++ generateUniqueId s.nextId
                role := .system
                content := rc
                timestamp := s.now
                messageType := some "reasoning"
                eventType := some "agent_reasoning" }
          else s
      | none => s
  | .agent_reasoning_raw_content text reasoning content =>
      match orOpt text (orOpt reasoning content) with
      | some rc =>
          if rc ≠ "" then
            addMessageToStore
              { s with nextId := s.nextId + 1 } sessionId
              { id := sessionId ++ "-reasoning-" ++ generateUniqueId s.nextId
                role := .system
                content := rc
                timestamp := s.now
                messageType := some "reasoning"
                eventType := some "agent_reasoning_raw_content" }
          else s
      | none => s
  | .agent_reasoning_delta => s
  | .agent_reasoning_raw_content_delta => s
  | .plan_update explanation plan =>
      addMessageToStore
        { s with nextId := s.nextId + 1 } sessionId
        { id := sessionId ++ "-plan-" ++ generateUniqueId s.nextId
          role := .system
          content := ""
          timestamp := s.now
          messageType := some "plan_update"
          eventType := some "plan_update"
          plan := some { explanation := explanation, plan := plan } }
  | .mcp_tool_call_begin tool =>
      let toolName := jsOr tool "Unknown Tool"
      if toolAllowed toolName then
        addMessageToStore
          { s with nextId := s.nextId + 1 } sessionId
          { id := sessionId ++ "-mcp-" ++ generateUniqueId s.nextId
            role := .system
            title := some ("🔧 " ++ toolName)
            content := ""
            timestamp := s.now
            messageType := some "tool_call"
            eventType := some "mcp_tool_call_begin" }
      else s
  | .mcp_tool_call_end => s
  | .patch_apply_begin => s
  | .patch_apply_end => s
  | .web_search_begin query =>
      addMessageToStore
        { s with nextId := s.nextId + 1 } sessionId
        { id := sessionId ++ "-search-begin-" ++ generateUniqueId s.nextId
          role := .system
          title := some ("🔍 " ++ query)
          content := "Searching web..."
          timestamp := s.now
          eventType := some "web_search_begin" }
  | .web_search_end => s
  | .exec_command_output_delta => s
  | .agent_message_delta delta =>
      let s1 :=
        if refTruthy s.currentStreamingMessageId then s
        else
          let messageId := sessionId ++ "-stream-" ++ generateUniqueId s.nextId
          let s' := { s with
            nextId := s.nextId + 1
            currentStreamingMessageId := some messageId }
          let s'' := addMessageToStore s' sessionId
            { id := messageId
              role := .assistant
              content := ""
              timestamp := s.now
              isStreaming := true
              eventType := some "agent_message_delta" }
          let sink : StreamSink :=
            { messageId := messageId, accumulatedContent := "" }
          { s'' with streamController := ctrlBegin s''.streamController sink }
      if refTruthy s1.currentStreamingMessageId && delta ≠ "" then
        let r := ctrlPush s1.streamController s1.store sessionId delta s1.now
        { s1 with streamController := r.1, store := r.2 }
      else s1
  | .exec_approval_request command cwd call_id =>
      let commandStr := String.intercalate " " command
      let req : ApprovalRequest :=
        { id := e.id
          kind := "exec"
          command := some commandStr
          cwd := some cwd
          call_id := call_id }
      addMessageToStore s sessionId
        { id := e.id
          role := .approval
          title := some ("🔧 Execute: " ++ commandStr)
          content := "Working directory: " ++ cwd
          timestamp := s.now
          approvalRequest := some req
          eventType := some "exec_approval_request" }
  | .patch_approval_request patch files =>
      let req : ApprovalRequest :=
        { id := e.id
          kind := "patch"
          patch := patch
          files := files }
      let filesStr :=
        match files with
        | some fs => String.intercalate ", " fs
        | none => ""
      addMessageToStore s sessionId
        { id := e.id
          role := .approval
          title := some ("📝 Patch: " ++
            (if filesStr = "" then "unknown files" else filesStr))
          content := "Requesting approval to apply patch"
          timestamp := s.now
          approvalRequest := some req
          eventType := some "patch_approval_request" }
  | .apply_patch_approval_request call_id changes reason grant_root =>
      let req : ApprovalRequest :=
        { id := e.id
          kind := "apply_patch"
          call_id := call_id
          changes := changes
          reason := reason
          grant_root := grant_root }
      let entries := changes.getD []
      let changesText :=
        if entries.isEmpty then "No change details available"
        else String.intercalate "\n\n"
          (entries.map (fun fc =>
            makeChangeSummary (relPath grant_root fc.1) fc.2))
      let titleFiles :=
        if entries.isEmpty then ""
        else String.intercalate ", "
          (entries.map (fun fc => relPath grant_root fc.1))
      addMessageToStore s sessionId
        { id := e.id
          role := .approval
          title := some ("🔄 Apply Patch" ++
            (if titleFiles = "" then "" else ": " ++ titleFiles))
          content :=
            (match reason with
              | some r => if r = "" then "" else "Reason: " ++ r ++ "\n\n"
              | none => "") ++ "Changes:\n" ++ changesText
          timestamp := s.now
          approvalRequest := some req
          eventType := some "apply_patch_approval_request" }
  | .error message =>
      let s1 :=
        if refTruthy s.currentStreamingMessageId then
          let r := ctrlFinalize s.streamController s.store sessionId true s.now
          { s with streamController := r.1, store := r.2
                   currentStreamingMessageId := none }
        else s
      let s2 := addMessageToStore
        { s1 with nextId := s1.nextId + 1 } sessionId
        { id := sessionId ++ "-error-" ++ generateUniqueId s1.nextId
          role := .system
          content := "Error: " ++ message
          timestamp := s1.now
          eventType := some "error" }
      { s2 with store := setSessionLoading s2.store sessionId false }
  | .shutdown_complete =>
      { s with
          streamController := ctrlClearAll s.streamController
          currentStreamingMessageId := none }
  | .background_event => s
  | .turn_diff unified_diff =>
      let diffText := unified_diff.getD ""
      if s.lastTurnDiff = some diffText then s
      else
        { s with
            lastTurnDiff := some diffText
            turnDiffs := setAssoc sessionId diffText s.turnDiffs }
  | .exec_command_begin command cwd =>
      let cmdMessageId := sessionId ++ "-cmd-" ++ generateUniqueId s.nextId
      let commandStr := String.intercalate " " command
      addMessageToStore
        { s with
            nextId := s.nextId + 1
            currentCommandMessageId := some cmdMessageId
            currentCommandInfo := some (command, cwd) } sessionId
        { id := cmdMessageId
          role := .system
          title := some ("▶ " ++ commandStr)
          content := "cwd: " ++ cwd
          timestamp := s.now
          messageType := some "exec_command"
          eventType := some "exec_command_begin" }
  | .exec_command_end exit_code stdout stderr =>
      match s.currentCommandMessageId, s.currentCommandInfo with
      | some msgId, some info =>
          if msgId ≠ "" then
            let command := String.intercalate " " info.1
            let status := if exit_code = 0 then "✅" else "❌"
            let statusText :=
              if exit_code = 0 then "" else " (exit " ++ toString exit_code ++ ")"
            let stdoutTruthy := jsTrim (stdout.getD "") ≠ ""
            let stderrTruthy := jsTrim (stderr.getD "") ≠ ""
            let stdoutBlock :=
              if stdoutTruthy then "\n```\n" ++ stdout.getD "" ++ "\n```" else ""
            let stderrBlock :=
              if stderrTruthy then
                (if stdoutTruthy then "\n\n" else "") ++
                  "Errors:\n```\n" ++ stderr.getD "" ++ "\n```"
              else ""
            { s with
                store := updateMessage s.store sessionId msgId
                  { title := some (command ++ " " ++ status ++ statusText)
                    content := some (stdoutBlock ++ stderrBlock)
                    timestamp := some s.now } s.now
                currentCommandMessageId := none
                currentCommandInfo := none }
          else s
      | _, _ => s
  | .turn_aborted reason =>
      let s1 := addMessageToStore
        { s with nextId := s.nextId + 1 } sessionId
        { id := sessionId ++ "-aborted-" ++ generateUniqueId s.nextId
          role := .system
          title := some "🛑 Turn Stopped"
          content :=
            match reason with
            | some r =>
                if r = "" then "The current turn has been aborted."
                else "Reason: " ++ r
            | none => "The current turn has been aborted."
          timestamp := s.now
          eventType := some "turn_aborted" }
      let s2 := { s1 with store := setSessionLoading s1.store sessionId false }
      let s3 :=
        if refTruthy s2.currentStreamingMessageId then
          let r := ctrlFinalize s2.streamController s2.store sessionId false s2.now
          { s2 with streamController := r.1, store := r.2
                    currentStreamingMessageId := none }
        else s2
      let s4 :=
        if refTruthy s3.currentCommandMessageId then
          { s3 with currentCommandMessageId := none, currentCommandInfo := none }
        else s3
      { s4 with stopSignals := s4.stopSignals + 1 }
  | .token_count => s
  | .other _ => s

/-- `handleCodexEvent` of `useCodexEvents.ts`: deduplicate by the composite
identity key, apply the bounded-set eviction, route by session id, then
dispatch by payload kind. -/
def handleCodexEvent (sessionId : String) (s : HookState) (e : CodexEvent) :
    HookState :=
  let key := eventKey e
  if key ∈ s.processedEventIds then s
  else
    let s1 := { s with processedEventIds := dedupAdd key s.processedEventIds }
    if routesTo sessionId e then dispatchEvent sessionId s1 e else s1

/-- Process a list of events in delivery order. -/
def processEvents (sessionId : String) (s : HookState)
    (es : List CodexEvent) : HookState :=
  es.foldl (handleCodexEvent sessionId) s

/-- Look up a conversation by id (`conversations.find(c => c.id === id)`). -/
def findConv (s : StoreState) (id : String) : Option Conversation :=
  s.conversations.find? (fun c => c.id = id)

/-- The transcript of a session as seen through the hook state (empty when
the conversation does not exist). -/
def convMessages (s : HookState) (sessionId : String) : List ChatMessage :=
  ((findConv s.store sessionId).map (fun c => c.messages)).getD []

/-- The set evolution performed by `handleCodexEvent` on the recently-seen
key set: insert the key if absent, then evict down to the newest 500 keys
when the set exceeds 1000 entries. -/
def dedupInsert (k : String) (l : List String) : List String :=
  if k ∈ l then l else dedupAdd k l

/-- Size evolution of the dedup set under fresh insertions. -/
def dedupLenEvolve : Nat → Nat → Nat
  | m, 0 => m
  | m, n + 1 => dedupLenEvolve (if 1000 < m + 1 then 500 else m + 1) n

/-- Concrete conversation for the C10 witness. -/
def c10Conv : Conversation :=
  { id := "s1", title := "Existing title", messages := [], createdAt := 0
    updatedAt := 0 }

/-- Concrete store for the C10 witness. -/
def c10Store : StoreState :=
  { conversations := [c10Conv]
    currentConversationId := none
    pendingUserInput := none
    pendingNewConversation := false
    currentFolder := none }

/-- Concrete messages for the C9 witness. -/
def c9m1 : ChatMessage := { id := "m1", role := .user, content := "a", timestamp := 0 }

/-- Concrete messages for the C9 witness. -/
def c9m2 : ChatMessage := { id := "m2", role := .assistant, content := "b", timestamp := 0 }

/-- Concrete conversation for the C9 witness. -/
def c9Conv : Conversation :=
  { id := "c", title := "T", messages := [c9m1, c9m2], createdAt := 0, updatedAt := 0 }

/-- Concrete store for the C9 witness. -/
def c9Store : StoreState :=
  { conversations := [c9Conv]
    currentConversationId := none
    pendingUserInput := none
    pendingNewConversation := false
    currentFolder := none }

/-- Store for the C8 counterexample: a conversation created with the
explicit title "New Chat" (as the event pipeline does). -/
def c8Store : StoreState :=
  (createConversation initialStore (some "New Chat") (some "s1") "g" 0).1

/-- User message for the C8 counterexample. -/
def c8UserMsg : ChatMessage :=
  { id := "m1", role := .user, content := "Hi", timestamp := 1 }

/-- Store for the C8 witness: a conversation created with no title, so the
default "New Conversation" applies. -/
def c8DefaultStore : StoreState :=
  (createConversation initialStore none (some "s2") "g" 0).1

/-- The conversation held by `c8DefaultStore`. -/
def c8DefaultConv : Conversation :=
  { id := "s2", title := "New Conversation", messages := [], createdAt := 0
    updatedAt := 0 }

/-- The three approval event kinds of the reducer. -/
def isApprovalMsg : MsgPayload → Bool
  | .exec_approval_request _ _ _ => true
  | .patch_approval_request _ _ => true
  | .apply_patch_approval_request _ _ _ _ => true
  | _ => false

/-- The evolution of the (sink accumulator, controller buffer) pair under
one `agent_message_delta` dispatch: an empty delta is not pushed (the source
guards on `msg.delta` truthiness); otherwise the delta is pushed through the
modelled controller, committing newly completed lines to the accumulator. -/
def cPushStep (p : String × String) (d : String) : String × String :=
  if d = "" then p
  else
    match pushCore p.2 d with
    | (some lines, buf) => (sinkAppend p.1 (String.intercalate "\n" lines), buf)
    | (none, buf) => (p.1, buf)

/-- The (sink accumulator, controller buffer) pair after a whole sequence of
delta payloads, starting from an empty stream. -/
def streamFold (ds : List String) : String × String :=
  ds.foldl cPushStep ("", "")

/-- The invariant maintained along a pure `agent_message_delta` trace for
session `sid`: the store holds exactly the one conversation for the session
with exactly the one (streaming) assistant entry, the controller is
streaming into that entry with sink accumulator `acc` and open buffer
`buf`, the entry's stored content equals the accumulator, and the dedup set
stays inside the key set `K`. -/
structure StreamInv (sid mid acc buf : String) (K : List String)
    (s : HookState) : Prop where
  conv : ∃ c m, s.store.conversations = [c] ∧ c.id = sid ∧ c.messages = [m] ∧
    m.id = mid ∧ m.role = Role.assistant ∧ m.isStreaming = false ∧
    m.content = acc
  ctrl : s.streamController = .streaming ⟨mid, acc⟩ buf
  sref : s.currentStreamingMessageId = some mid
  midne : mid ≠ ""
  keys : ∀ x ∈ s.processedEventIds, x ∈ K
  cmdm : s.currentCommandMessageId = none
  cmdi : s.currentCommandInfo = none
  stop : s.stopSignals = 0

/-- Synthetic id of the i-th delta event of a trace; ids of different
indices have different lengths, so the dedup keys never collide. -/
def deltaIdxId (i : Nat) : String := "e" ++ String.mk (List.replicate i 'x')

/-- The trace of `agent_message_delta` events carrying the given payloads,
with indexed ids starting at `i`. -/
def deltaEventsFrom (sid : String) : Nat → List String → List CodexEvent
  | _, [] => []
  | i, d :: ds =>
      ⟨deltaIdxId i, some sid, .agent_message_delta d⟩ ::
        deltaEventsFrom sid (i + 1) ds

/-- The dedup key of the i-th delta event (independent of the payload). -/
def deltaKey (sid : String) (i : Nat) : String :=
  eventKey ⟨deltaIdxId i, some sid, .agent_message_delta ""⟩

/-- The streaming entry content shown in the transcript after processing the
given delta payloads from a fresh mount of session `sid`. -/
def streamContent (sid : String) (now : Nat) (ds : List String) : String :=
  (((findConv (processEvents sid (initialHookState now)
        (deltaEventsFrom sid 0 ds)).store sid).bind
      (fun c => c.messages.head?)).map (fun m => m.content)).getD ""

/-! ### Generic helper lemmas -/

theorem find?_map_comm {α : Type} (f : α → α) (p : α → Bool)
    (h : ∀ a, p (f a) = p a) (l : List α) :
    (l.map f).find? p = (l.find? p).map f := by
  induction l with
  | nil => rfl
  | cons a t ih =>
      simp only [List.map_cons, List.find?_cons, h a]
      cases hpa : p a <;> simp [ih]

theorem take_findIdx?_eq_takeWhile {α : Type} (p : α → Bool) (l : List α) :
    (match l.findIdx? p with | some i => l.take i | none => l) =
      l.takeWhile (fun a => !(p a)) := by
  induction l with
  | nil => simp
  | cons a t ih =>
      rw [List.findIdx?_cons, List.findIdx?_succ]
      cases hpa : p a
      · have ih' := ih
        cases h : t.findIdx? p with
        | none =>
            rw [h] at ih'
            simpa [hpa, List.takeWhile_cons] using ih'
        | some i =>
            rw [h] at ih'
            simpa [hpa, List.takeWhile_cons, List.take_succ_cons] using ih'
      · simp [hpa, List.takeWhile_cons]

/-! ### Deduplication set lemmas -/

theorem mem_dedupAdd_self (k : String) (l : List String) : k ∈ dedupAdd k l := by
  unfold dedupAdd
  split
  · rw [show (500 : Nat) = 499 + 1 from rfl, List.take_succ_cons]
    exact List.mem_cons_self _ _
  · exact List.mem_cons_self _ _

theorem dedupAdd_subset (k : String) (l : List String) :
    dedupAdd k l ⊆ k :: l := by
  unfold dedupAdd
  split
  · exact List.take_subset _ _
  · exact fun x hx => hx

theorem length_dedupAdd (k : String) (l : List String) :
    (dedupAdd k l).length = if 1000 < l.length + 1 then 500 else l.length + 1 := by
  unfold dedupAdd
  by_cases h : 1000 < l.length + 1
  · simp only [List.length_cons, h, if_true, List.length_take]
    omega
  · simp [List.length_cons, h]

theorem mem_dedupInsert_self (k : String) (l : List String) :
    k ∈ dedupInsert k l := by
  unfold dedupInsert
  split
  · assumption
  · exact mem_dedupAdd_self k l

theorem dedupInsert_fold_length :
    ∀ (ks l : List String), ks.Nodup → (∀ k ∈ ks, k ∉ l) →
      (ks.foldl (fun acc k => dedupInsert k acc) l).length =
        dedupLenEvolve l.length ks.length := by
  intro ks
  induction ks with
  | nil => intro l _ _; rfl
  | cons k t ih =>
      intro l hnd hfresh
      have hk : k ∉ l := hfresh k (List.mem_cons_self _ _)
      have hins : dedupInsert k l = dedupAdd k l := if_neg hk
      have hfresh' : ∀ k' ∈ t, k' ∉ dedupAdd k l := by
        intro k' hk' hmem
        rcases List.mem_cons.mp (dedupAdd_subset k l hmem) with h | h
        · exact (List.nodup_cons.mp hnd).1 (h ▸ hk')
        · exact hfresh k' (List.mem_cons_of_mem _ hk') h
      calc ((k :: t).foldl (fun acc k => dedupInsert k acc) l).length
          = (t.foldl (fun acc k => dedupInsert k acc) (dedupAdd k l)).length := by
            rw [List.foldl_cons, hins]
        _ = dedupLenEvolve (dedupAdd k l).length t.length :=
            ih _ (List.nodup_cons.mp hnd).2 hfresh'
        _ = dedupLenEvolve l.length (t.length + 1) := by
            rw [length_dedupAdd]; rfl

theorem dispatchEvent_processedEventIds (sessionId : String) (s : HookState)
    (e : CodexEvent) :
    (dispatchEvent sessionId s e).processedEventIds = s.processedEventIds := by
  obtain ⟨eid, esess, emsg⟩ := e
  cases emsg <;>
    simp only [dispatchEvent, addMessageToStore] <;>
    repeat' first | rfl | split

theorem handleCodexEvent_processedEventIds (sessionId : String) (s : HookState)
    (e : CodexEvent) :
    (handleCodexEvent sessionId s e).processedEventIds =
      dedupInsert (eventKey e) s.processedEventIds := by
  by_cases h : eventKey e ∈ s.processedEventIds
  · simp [handleCodexEvent, dedupInsert, h]
  · simp only [handleCodexEvent, dedupInsert, h, if_false]
    split
    · rw [dispatchEvent_processedEventIds]
    · rfl

theorem dedupLenEvolve_add (m a b : Nat) :
    dedupLenEvolve m (a + b) = dedupLenEvolve (dedupLenEvolve m a) b := by
  induction a generalizing m with
  | zero => rw [Nat.zero_add]; rfl
  | succ a ih =>
      have h : a + 1 + b = (a + b) + 1 := by omega
      rw [h]
      show dedupLenEvolve (if 1000 < m + 1 then 500 else m + 1) (a + b) = _
      rw [ih]
      rfl

theorem dedupLenEvolve_le (m n : Nat) (h : m + n ≤ 1000) :
    dedupLenEvolve m n = m + n := by
  induction n generalizing m with
  | zero => rfl
  | succ n ih =>
      show dedupLenEvolve (if 1000 < m + 1 then 500 else m + 1) n = _
      rw [if_neg (by omega), ih (m + 1) (by omega)]
      omega

/-- C4.  Dedup set bound: inserting 1001 distinct identities into the empty
recently-seen set leaves exactly 500 retained keys (in particular at most
600), the set always contains the identity just inserted, and after any
`handleCodexEvent` delivery the set contains the delivered event's identity
key. -/
theorem dedup_set_bound :
    (∀ ks : List String, ks.Nodup → ks.length = 1001 →
      (ks.foldl (fun acc k => dedupInsert k acc) []).length = 500 ∧
      (ks.foldl (fun acc k => dedupInsert k acc) []).length ≤ 600) ∧
    (∀ (l : List String) (k : String), k ∈ dedupInsert k l) ∧
    (∀ (sessionId : String) (s : HookState) (e : CodexEvent),
      eventKey e ∈ (handleCodexEvent sessionId s e).processedEventIds) := by
  refine ⟨fun ks hnd hlen => ?_, fun l k => mem_dedupInsert_self k l,
    fun sid s e => ?_⟩
  · have h := dedupInsert_fold_length ks [] hnd (by simp)
    rw [hlen] at h
    simp only [List.length_nil] at h
    have h1001 : dedupLenEvolve 0 1001 = 500 := by
      rw [show (1001 : Nat) = 1000 + 1 from rfl, dedupLenEvolve_add,
        dedupLenEvolve_le 0 1000 (by omega)]
      show (if 1000 < 1000 + 1 then 500 else 1000 + 1) = 500
      rw [if_pos (by omega)]
    rw [h, h1001]
    exact ⟨rfl, by omega⟩
  · rw [handleCodexEvent_processedEventIds]
    exact mem_dedupInsert_self _ _

/-- Witness for C4 at a concrete input: 1001 distinct keys (distinguished by
length), and the key "x" inserted into the empty set. -/
theorem dedup_set_bound_witness :
    (((List.range 1001).map (fun n => String.mk (List.replicate n 'a'))).foldl
        (fun acc k => dedupInsert k acc) []).length ≤ 600 ∧
    "x" ∈ dedupInsert "x" [] := by
  constructor
  · refine (dedup_set_bound.1 _ ?_ ?_).2
    · refine List.Nodup.map ?_ (List.nodup_range 1001)
      intro a b h
      have := congrArg (fun s : String => s.data.length) h
      simpa using this
    · simp
  · exact dedup_set_bound.2.1 [] "x"

/-- C10.  `createConversation` with a session id for which a conversation
already exists returns that id and selects it, and leaves the conversations
list (hence the existing conversation's title and messages), the
`pendingNewConversation` flag and the rest of the store unchanged. -/
theorem createConversation_existing_id (s : StoreState) (title : Option String)
    (sid genId : String) (now : Nat) (conv : Conversation)
    (hsid : sid ≠ "") (hmem : conv ∈ s.conversations) (hid : conv.id = sid) :
    (createConversation s title (some sid) genId now).2 = sid ∧
    (createConversation s title (some sid) genId now).1.currentConversationId =
      some sid ∧
    (createConversation s title (some sid) genId now).1.conversations =
      s.conversations ∧
    (createConversation s title (some sid) genId now).1.pendingNewConversation =
      s.pendingNewConversation ∧
    (createConversation s title (some sid) genId now).1.pendingUserInput =
      s.pendingUserInput ∧
    (createConversation s title (some sid) genId now).1.currentFolder =
      s.currentFolder := by
  have hfind : (s.conversations.find? (fun c => c.id = sid)).isSome := by
    rw [List.find?_isSome]
    exact ⟨conv, hmem, by simp [hid]⟩
  simp [createConversation, hsid, hfind]

/-- Witness for C10 at a concrete input. -/
theorem createConversation_existing_id_witness :
    (createConversation c10Store (some "New Chat") (some "s1") "g" 5).2 = "s1" ∧
    (createConversation c10Store (some "New Chat") (some "s1") "g" 5).1.currentConversationId =
      some "s1" ∧
    (createConversation c10Store (some "New Chat") (some "s1") "g" 5).1.conversations =
      c10Store.conversations ∧
    (createConversation c10Store (some "New Chat") (some "s1") "g" 5).1.pendingNewConversation =
      c10Store.pendingNewConversation ∧
    (createConversation c10Store (some "New Chat") (some "s1") "g" 5).1.pendingUserInput =
      c10Store.pendingUserInput ∧
    (createConversation c10Store (some "New Chat") (some "s1") "g" 5).1.currentFolder =
      c10Store.currentFolder :=
  createConversation_existing_id c10Store (some "New Chat") "s1" "g" 5 c10Conv
    (by decide) (List.mem_cons_self _ _) rfl

/-- The per-conversation rewrite applied by `truncateMessagesFrom`. -/
theorem truncate_conv_messages (cid mid : String) (now : Nat)
    (conv : Conversation) (hid : conv.id = cid) :
    ((fun conv =>
        if conv.id = cid then
          match conv.messages.findIdx? (fun m => m.id = mid) with
          | some messageIndex =>
              { conv with
                  messages := conv.messages.take messageIndex
                  updatedAt := now }
          | none => conv
        else conv) conv).messages =
      conv.messages.takeWhile (fun m => m.id ≠ mid) := by
  simp only [hid, if_true, if_pos]
  have h := take_findIdx?_eq_takeWhile (fun m : ChatMessage => m.id = mid)
    conv.messages
  cases h2 : conv.messages.findIdx? (fun m => m.id = mid) with
  | none =>
      rw [h2] at h
      simpa [ne_eq, decide_not] using h
  | some i =>
      rw [h2] at h
      simpa [ne_eq, decide_not] using h

/-- C9.  `truncateMessagesFrom` keeps exactly the messages strictly before
the first message whose id matches (the matching message and everything
after it are removed), is a no-op on the conversation when no message
matches, and never touches other conversations. -/
theorem truncateMessagesFrom_spec (s : StoreState) (cid mid : String) (now : Nat) :
    ((findConv (truncateMessagesFrom s cid mid now) cid).map (fun c => c.messages) =
      (findConv s cid).map (fun c => c.messages.takeWhile (fun m => m.id ≠ mid))) ∧
    (∀ conv, findConv s cid = some conv → (∀ m ∈ conv.messages, m.id ≠ mid) →
      findConv (truncateMessagesFrom s cid mid now) cid = some conv) ∧
    (∀ cid2, cid2 ≠ cid →
      findConv (truncateMessagesFrom s cid mid now) cid2 = findConv s cid2) := by
  set f : Conversation → Conversation := fun conv =>
    if conv.id = cid then
      match conv.messages.findIdx? (fun m => m.id = mid) with
      | some messageIndex =>
          { conv with
              messages := conv.messages.take messageIndex
              updatedAt := now }
      | none => conv
    else conv with hf
  have hfid : ∀ conv, (f conv).id = conv.id := by
    intro conv
    rw [hf]
    dsimp only
    split
    · split <;> rfl
    · rfl
  have hmap : ∀ x, findConv (truncateMessagesFrom s cid mid now) x =
      (findConv s x).map f := by
    intro x
    show (s.conversations.map f).find? (fun c => c.id = x) = _
    exact find?_map_comm f (fun c => c.id = x) (fun a => by simp [hfid a]) _
  refine ⟨?_, ?_, ?_⟩
  · rw [hmap]
    cases hfc : findConv s cid with
    | none => rfl
    | some conv =>
        have hid : conv.id = cid := by
          have := List.find?_some hfc
          simpa using this
        simp only [Option.map_some']
        rw [hf]
        exact congrArg some (truncate_conv_messages cid mid now conv hid)
  · intro conv hfc hnone
    have hidx : conv.messages.findIdx? (fun m => m.id = mid) = none := by
      rw [List.findIdx?_eq_none_iff]
      intro m hm
      simpa using hnone m hm
    have : f conv = conv := by
      rw [hf]
      dsimp only
      split
      · rw [hidx]
      · rfl
    rw [hmap, hfc, Option.map_some', this]
  · intro cid2 hne
    rw [hmap]
    cases hfc : findConv s cid2 with
    | none => rfl
    | some conv =>
        have hid : conv.id = cid2 := by
          have := List.find?_some hfc
          simpa using this
        have : f conv = conv := by
          rw [hf]
          dsimp only
          rw [if_neg (by rw [hid]; exact hne)]
        rw [Option.map_some', this]

/-- Witness for C9 at a concrete input. -/
theorem truncateMessagesFrom_spec_witness :
    ((findConv (truncateMessagesFrom c9Store "c" "m2" 1) "c").map (fun c => c.messages) =
      (findConv c9Store "c").map (fun c => c.messages.takeWhile (fun m => m.id ≠ "m2"))) ∧
    findConv (truncateMessagesFrom c9Store "c" "zz" 1) "c" = some c9Conv ∧
    findConv (truncateMessagesFrom c9Store "c" "m2" 1) "d" = findConv c9Store "d" :=
  ⟨(truncateMessagesFrom_spec c9Store "c" "m2" 1).1,
   (truncateMessagesFrom_spec c9Store "c" "zz" 1).2.1 c9Conv (by rfl) (by decide),
   (truncateMessagesFrom_spec c9Store "c" "m2" 1).2.2 "d" (by decide)⟩

/-- The per-conversation rewrite applied by `addMessage`. -/
theorem addMessage_conv_title (s : StoreState) (sid : String) (m : ChatMessage)
    (now : Nat) (conv : Conversation) (hfc : findConv s sid = some conv) :
    (findConv (addMessage s sid m now) sid).map (fun c => c.title) =
      some (if conv.title = "New Conversation" then
        generateTitle (conv.messages ++ [m]) else conv.title) := by
  set f : Conversation → Conversation := fun conv =>
    if conv.id = sid then
      { conv with
          messages := conv.messages ++ [m]
          title :=
            if conv.title = "New Conversation" then
              generateTitle (conv.messages ++ [m])
            else conv.title
          updatedAt := now }
    else conv with hf
  have hfid : ∀ c, (f c).id = c.id := by
    intro c
    rw [hf]
    dsimp only
    split <;> rfl
  have hid : conv.id = sid := by
    have := List.find?_some hfc
    simpa using this
  have hmap : findConv (addMessage s sid m now) sid = (findConv s sid).map f := by
    show (s.conversations.map f).find? (fun c => c.id = sid) = _
    exact find?_map_comm f (fun c => c.id = sid) (fun a => by simp [hfid a]) _
  rw [hmap, hfc, Option.map_some', Option.map_some']
  rw [hf]
  simp only [hid, if_true, if_pos]

/-- C8 (amended).  Title auto-derivation as implemented: `addMessage`
re-derives the title exactly while the conversation's title is still the
store default "New Conversation" — when the added message is the first user
entry, the derived title is its trimmed content truncated to 50 characters
with an ellipsis appended when longer; once the title differs from
"New Conversation" no `addMessage` ever changes it; an explicit
`updateConversationTitle` rename always changes it. -/
theorem title_autoderivation_amended :
    (∀ (s : StoreState) (sid : String) (m : ChatMessage) (now : Nat)
      (conv : Conversation),
      findConv s sid = some conv → conv.title = "New Conversation" →
      (∀ m0 ∈ conv.messages, m0.role ≠ Role.user) → m.role = Role.user →
      (findConv (addMessage s sid m now) sid).map (fun c => c.title) =
        some (if 50 < (jsTrim m.content).length then
          (jsTrim m.content).take 50 ++ "..." else jsTrim m.content)) ∧
    (∀ (s : StoreState) (sid : String) (m : ChatMessage) (now : Nat)
      (conv : Conversation),
      findConv s sid = some conv → conv.title ≠ "New Conversation" →
      (findConv (addMessage s sid m now) sid).map (fun c => c.title) =
        some conv.title) ∧
    (∀ (s : StoreState) (id title : String) (now : Nat) (conv : Conversation),
      findConv s id = some conv →
      (findConv (updateConversationTitle s id title now) id).map (fun c => c.title) =
        some title) := by
  refine ⟨?_, ?_, ?_⟩
  · intro s sid m now conv hfc htitle hnouser hrole
    rw [addMessage_conv_title s sid m now conv hfc, htitle, if_pos rfl]
    have hfind : (conv.messages ++ [m]).find? (fun x => x.role = Role.user) =
        some m := by
      rw [List.find?_append]
      have h1 : conv.messages.find? (fun x => x.role = Role.user) = none := by
        rw [List.find?_eq_none]
        intro x hx
        simpa using hnouser x hx
      rw [h1]
      simp [List.find?_cons, hrole]
    rw [show generateTitle (conv.messages ++ [m]) =
        (if 50 < (jsTrim m.content).length then
          (jsTrim m.content).take 50 ++ "..." else jsTrim m.content) from by
      unfold generateTitle
      rw [hfind]]
  · intro s sid m now conv hfc htitle
    rw [addMessage_conv_title s sid m now conv hfc, if_neg htitle]
  · intro s id title now conv hfc
    set f : Conversation → Conversation := fun conv =>
      if conv.id = id then { conv with title := title, updatedAt := now }
      else conv with hf
    have hfid : ∀ c, (f c).id = c.id := by
      intro c
      rw [hf]
      dsimp only
      split <;> rfl
    have hid : conv.id = id := by
      have := List.find?_some hfc
      simpa using this
    have hmap : findConv (updateConversationTitle s id title now) id =
        (findConv s id).map f := by
      show (s.conversations.map f).find? (fun c => c.id = id) = _
      exact find?_map_comm f (fun c => c.id = id) (fun a => by simp [hfid a]) _
    rw [hmap, hfc, Option.map_some', Option.map_some']
    rw [hf]
    simp only [hid, if_true, if_pos]

/-- C8 counterexample: adding the first (user) message to a session whose
conversation was created with title "New Chat" does not derive the display
title from the user entry's content — the title stays "New Chat", not
"Hi". -/
theorem title_autoderivation_counterexample :
    (findConv (addMessage c8Store "s1" c8UserMsg 1) "s1").map (fun c => c.title) =
      some "New Chat" ∧ ("New Chat" : String) ≠ "Hi" := by
  constructor
  · rfl
  · decide

/-- Witness for C8 (amended) at concrete inputs. -/
theorem title_autoderivation_amended_witness :
    ((findConv (addMessage c8DefaultStore "s2" c8UserMsg 1) "s2").map
        (fun c => c.title) = some "Hi") ∧
    ((findConv (addMessage c10Store "s1" c8UserMsg 1) "s1").map
        (fun c => c.title) = some c10Conv.title) ∧
    ((findConv (updateConversationTitle c10Store "s1" "Renamed" 2) "s1").map
        (fun c => c.title) = some "Renamed") := by
  refine ⟨?_, ?_, ?_⟩
  · have h := title_autoderivation_amended.1 c8DefaultStore "s2" c8UserMsg 1
      c8DefaultConv rfl rfl (by intro m0 hm0; simp [c8DefaultConv] at hm0) rfl
    have h2 : (if 50 < (jsTrim c8UserMsg.content).length then
        (jsTrim c8UserMsg.content).take 50 ++ "..."
        else jsTrim c8UserMsg.content) = "Hi" := by decide
    rw [h2] at h
    exact h
  · exact title_autoderivation_amended.2.1 c10Store "s1" c8UserMsg 1 c10Conv rfl
      (by decide)
  · exact title_autoderivation_amended.2.2 c10Store "s1" "Renamed" 2 c10Conv rfl

/-! ### Event pipeline claims -/

theorem handleCodexEvent_of_mem (sessionId : String) (s : HookState)
    (e : CodexEvent) (h : eventKey e ∈ s.processedEventIds) :
    handleCodexEvent sessionId s e = s := by
  simp [handleCodexEvent, h]

/-- C3.  Idempotent delivery: processing the identical event a second time
is a complete no-op on all session state — the composite identity key is
found in the recently-seen set and the handler returns the state unchanged,
so every transcript mutation the event causes happens exactly once, on the
first delivery. -/
theorem event_delivery_idempotent (sessionId : String) (s : HookState)
    (e : CodexEvent) :
    handleCodexEvent sessionId (handleCodexEvent sessionId s e) e =
      handleCodexEvent sessionId s e := by
  have h2 : eventKey e ∈ (handleCodexEvent sessionId s e).processedEventIds := by
    rw [handleCodexEvent_processedEventIds]
    exact mem_dedupInsert_self _ _
  exact handleCodexEvent_of_mem sessionId _ e h2

theorem findConv_addMessage (st : StoreState) (sid : String) (m' : ChatMessage)
    (now : Nat) :
    (findConv (addMessage st sid m' now) sid).map (fun c => c.messages) =
      (findConv st sid).map (fun c => c.messages ++ [m']) := by
  set f : Conversation → Conversation := fun conv =>
    if conv.id = sid then
      { conv with
          messages := conv.messages ++ [m']
          title :=
            if conv.title = "New Conversation" then
              generateTitle (conv.messages ++ [m'])
            else conv.title
          updatedAt := now }
    else conv with hf
  have hfid : ∀ c, (f c).id = c.id := by
    intro c
    rw [hf]
    dsimp only
    split <;> rfl
  have hmap : findConv (addMessage st sid m' now) sid = (findConv st sid).map f := by
    show (st.conversations.map f).find? (fun c => c.id = sid) = _
    exact find?_map_comm f (fun c => c.id = sid) (fun a => by simp [hfid a]) _
  rw [hmap]
  cases hfc : findConv st sid with
  | none => rfl
  | some conv =>
      have hid : conv.id = sid := by
        have := List.find?_some hfc
        simpa using this
      simp only [Option.map_some']
      rw [hf]
      simp only [hid, if_true, if_pos]

theorem findConv_createConversation_fresh (st : StoreState)
    (title : Option String) (sid g : String) (now : Nat) (hsid : sid ≠ "")
    (hnone : (st.conversations.find? (fun c => c.id = sid)).isSome = false) :
    ∃ conv, findConv (createConversation st title (some sid) g now).1 sid =
      some conv ∧ conv.messages = [] := by
  simp only [createConversation, hsid, if_false, if_neg, findConv]
  rw [if_neg (by simp [hnone])]
  refine ⟨{ id := sid,
            title := match title with
              | some t => if t = "" then "New Conversation" else t
              | none => "New Conversation",
            messages := [], createdAt := now, updatedAt := now,
            isFavorite := false, projectRealpath := st.currentFolder,
            isLoading := false, codexSessionId := none, resumePath := none },
      ?_, rfl⟩
  simp [List.find?_cons]

theorem convMessages_addMessageToStore (s : HookState) (sid : String)
    (m : ChatMessage) (hsid : sid ≠ "") :
    convMessages (addMessageToStore s sid m) sid =
      convMessages s sid ++ [toStoreMessage m] := by
  unfold addMessageToStore
  by_cases h : (s.store.conversations.find? (fun c => c.id = sid)).isSome
  · rcases Option.isSome_iff_exists.mp h with ⟨conv, hconv⟩
    simp only [h, if_true, if_pos, convMessages]
    rw [findConv_addMessage]
    simp [findConv, hconv]
  · rcases findConv_createConversation_fresh s.store (some "New Chat") sid
      (generateUniqueId s.nextId) s.now hsid (by simpa using h) with
      ⟨conv, hconv, hmsgs⟩
    simp only [h, if_false, Bool.false_eq_true, if_neg, convMessages]
    rw [findConv_addMessage, hconv]
    have hnone : s.store.conversations.find? (fun c => c.id = sid) = none :=
      Option.not_isSome_iff_eq_none.mp h
    simp [findConv, hnone, hmsgs]

/-- C5.  Approval id stability: every exec / patch / apply-patch approval
request appends exactly one transcript entry with role `approval` whose id
is exactly the originating event id (not a freshly generated id). -/
theorem approval_entry_id_stability (sessionId : String) (s : HookState)
    (e : CodexEvent) (hsid : sessionId ≠ "")
    (happ : isApprovalMsg e.msg = true)
    (hfresh : eventKey e ∉ s.processedEventIds)
    (hroute : routesTo sessionId e = true) :
    ∃ m, convMessages (handleCodexEvent sessionId s e) sessionId =
      convMessages s sessionId ++ [m] ∧ m.id = e.id ∧
      m.role = Role.approval := by
  have h1 : handleCodexEvent sessionId s e =
      dispatchEvent sessionId
        { s with processedEventIds := dedupAdd (eventKey e) s.processedEventIds }
        e := by
    simp [handleCodexEvent, hfresh, hroute]
  rw [h1]
  set s1 : HookState :=
    { s with processedEventIds := dedupAdd (eventKey e) s.processedEventIds }
    with hs1
  obtain ⟨eid, esess, emsg⟩ := e
  dsimp only at happ
  cases emsg <;>
    simp only [dispatchEvent] <;>
    first
      | (simp only [isApprovalMsg, Bool.false_eq_true] at happ
         done)
      | exact ⟨_, convMessages_addMessageToStore s1 sessionId _ hsid, rfl, rfl⟩

/-- Witness for C5 at a concrete input: an `apply_patch_approval_request`
with id "evt-42" appends an approval entry whose id is exactly "evt-42". -/
theorem approval_entry_id_stability_witness :
    ∃ m, convMessages (handleCodexEvent "s1" (initialHookState 0)
        ⟨"evt-42", some "s1", .apply_patch_approval_request none none none none⟩)
        "s1" =
      convMessages (initialHookState 0) "s1" ++ [m] ∧ m.id = "evt-42" ∧
      m.role = Role.approval :=
  approval_entry_id_stability "s1" (initialHookState 0)
    ⟨"evt-42", some "s1", .apply_patch_approval_request none none none none⟩
    (by decide) (by decide) (by decide) (by decide)

theorem routesTo_self (sid id : String) (m : MsgPayload) :
    routesTo sid ⟨id, some sid, m⟩ = true := by
  simp only [routesTo]
  split
  · rfl
  · simp

theorem streamMessageId_ne_empty (sid : String) (n : Nat) :
    sid ++ "-stream-" ++ generateUniqueId n ≠ "" := by
  intro h
  have hlen := congrArg String.length h
  have h8 : ("-stream-" : String).length = 8 := rfl
  have h0 : ("" : String).length = 0 := rfl
  simp only [String.length_append, h8, h0] at hlen
  omega


theorem addMessageToStore_proj (s : HookState) (sid : String) (m : ChatMessage) :
    (addMessageToStore s sid m).streamController = s.streamController ∧
    (addMessageToStore s sid m).currentStreamingMessageId =
      s.currentStreamingMessageId ∧
    (addMessageToStore s sid m).now = s.now ∧
    (addMessageToStore s sid m).currentCommandMessageId =
      s.currentCommandMessageId ∧
    (addMessageToStore s sid m).currentCommandInfo = s.currentCommandInfo ∧
    (addMessageToStore s sid m).lastTurnDiff = s.lastTurnDiff ∧
    (addMessageToStore s sid m).processedEventIds = s.processedEventIds ∧
    (addMessageToStore s sid m).turnDiffs = s.turnDiffs ∧
    (addMessageToStore s sid m).stopSignals = s.stopSignals ∧
    (addMessageToStore s sid m).nextId = s.nextId :=
  ⟨rfl, rfl, rfl, rfl, rfl, rfl, rfl, rfl, rfl, rfl⟩

theorem addMessageToStore_store_fresh (s : HookState) (sid : String)
    (m : ChatMessage) (hsid : sid ≠ "") (hconv : s.store.conversations = []) :
    (addMessageToStore s sid m).store =
      { conversations :=
          [Conversation.mk sid "New Chat" [toStoreMessage m] s.now s.now false
            s.store.currentFolder false none none]
        currentConversationId := some sid
        pendingUserInput := s.store.pendingUserInput
        pendingNewConversation := true
        currentFolder := s.store.currentFolder } := by
  have hnc : ("New Chat" = "New Conversation") = False := by simp
  simp [addMessageToStore, hconv, createConversation, hsid, addMessage,
    List.find?_cons, hnc]

theorem stream_create (sid eid : String) (d : String)
    (s : HookState) (K : List String)
    (hsid : sid ≠ "")
    (hkeys : ∀ x ∈ s.processedEventIds, x ∈ K)
    (hfresh : eventKey ⟨eid, some sid, .agent_message_delta d⟩ ∉ K)
    (hconv : s.store.conversations = [])
    (hctrl : s.streamController = .idle)
    (href : s.currentStreamingMessageId = none)
    (hcmdm : s.currentCommandMessageId = none)
    (hcmdi : s.currentCommandInfo = none)
    (hstop : s.stopSignals = 0) :
    StreamInv sid (sid ++ "-stream-" ++ generateUniqueId s.nextId)
      (cPushStep ("", "") d).1 (cPushStep ("", "") d).2
      (eventKey ⟨eid, some sid, .agent_message_delta d⟩ :: K)
      (handleCodexEvent sid s ⟨eid, some sid, .agent_message_delta d⟩) := by
  have hmem : eventKey ⟨eid, some sid, .agent_message_delta d⟩ ∉ s.processedEventIds :=
    fun hx => hfresh (hkeys _ hx)
  have hroute := routesTo_self sid eid (.agent_message_delta d)
  have hmid : sid ++ "-stream-" ++ generateUniqueId s.nextId ≠ "" :=
    streamMessageId_ne_empty sid s.nextId
  obtain ⟨store, ctrl, srefv, cmdmv, cmdiv, ltd, pids, tds, stopv, nid, nowv⟩ := s
  obtain ⟨convs, ccid, pui, pnc, cf⟩ := store
  dsimp only at hconv hctrl href hcmdm hcmdi hstop hkeys hmem hmid ⊢
  subst hconv hctrl href hcmdm hcmdi hstop
  rw [handleCodexEvent]
  simp only [if_neg hmem, hroute, if_true, if_pos]
  simp only [dispatchEvent, refTruthy, Bool.false_eq_true, if_false]
  simp only [addMessageToStore_proj, addMessageToStore_store_fresh, hsid,
    not_false_eq_true, ne_eq]
  simp only [hmid, ne_eq, not_false_eq_true, decide_True, Bool.true_and, ctrlBegin]
  by_cases hd : d = ""
  · subst hd
    simp only [decide_True, Bool.not_true, Bool.and_false, Bool.false_eq_true,
      if_false, not_true, decide_False]
    refine ⟨⟨_, _, rfl, rfl, rfl, rfl, rfl, rfl, rfl⟩, rfl, rfl, hmid, ?_,
      rfl, rfl, rfl⟩
    intro x hx
    rcases List.mem_cons.mp (dedupAdd_subset _ _ hx) with h | h
    · exact h ▸ List.mem_cons_self _ _
    · exact List.mem_cons_of_mem _ (hkeys x h)
  · simp only [hd, decide_True, Bool.not_true, decide_eq_true_eq, not_false_eq_true,
      if_true, if_pos]
    have hcps : cPushStep ("", "") d =
        match pushCore "" d with
        | (some lines, buf) =>
            (sinkAppend "" (String.intercalate "\n" lines), buf)
        | (none, buf) => ("", buf) := by
      simp [cPushStep, hd]
    rcases hpc : pushCore "" d with ⟨_ | lines, buf2⟩
    · rw [hpc] at hcps
      simp only [ctrlPush, hpc, hcps]
      refine ⟨⟨_, _, rfl, rfl, rfl, rfl, rfl, rfl, rfl⟩, rfl, rfl, hmid, ?_,
        rfl, rfl, rfl⟩
      intro x hx
      rcases List.mem_cons.mp (dedupAdd_subset _ _ hx) with h | h
      · exact h ▸ List.mem_cons_self _ _
      · exact List.mem_cons_of_mem _ (hkeys x h)
    · rw [hpc] at hcps
      simp only [ctrlPush, hpc, hcps, sinkInsertLines, updateMessage, applyUpdate,
        toStoreMessage, List.map_cons, List.map_nil, Option.getD_some,
        Option.getD_none, eq_self_iff_true, if_true, if_pos]
      refine ⟨⟨_, _, rfl, rfl, rfl, rfl, rfl, rfl, rfl⟩, rfl, rfl, hmid, ?_,
        rfl, rfl, rfl⟩
      intro x hx
      rcases List.mem_cons.mp (dedupAdd_subset _ _ hx) with h | h
      · exact h ▸ List.mem_cons_self _ _
      · exact List.mem_cons_of_mem _ (hkeys x h)


theorem stream_step (sid eid d : String) (s : HookState) (mid acc buf : String)
    (K : List String)
    (inv : StreamInv sid mid acc buf K s)
    (hfresh : eventKey ⟨eid, some sid, .agent_message_delta d⟩ ∉ K) :
    StreamInv sid mid (cPushStep (acc, buf) d).1 (cPushStep (acc, buf) d).2
      (eventKey ⟨eid, some sid, .agent_message_delta d⟩ :: K)
      (handleCodexEvent sid s ⟨eid, some sid, .agent_message_delta d⟩) := by
  obtain ⟨⟨c, m, hconvs, hcid, hmsgs, hmid, hrole, hstream, hcontent⟩,
    hctrl, hsref, hmidne, hkeys, hcmdm, hcmdi, hstop⟩ := inv
  have hmem : eventKey ⟨eid, some sid, .agent_message_delta d⟩ ∉
      s.processedEventIds := fun hx => hfresh (hkeys _ hx)
  have hroute := routesTo_self sid eid (.agent_message_delta d)
  rw [handleCodexEvent]
  simp only [if_neg hmem, hroute, if_true, if_pos]
  simp only [dispatchEvent, hsref, refTruthy, hmidne, ne_eq, not_false_eq_true,
    decide_True, Bool.true_and, if_true, if_pos]
  have hkeys2 : ∀ x ∈ dedupAdd
      (eventKey ⟨eid, some sid, .agent_message_delta d⟩) s.processedEventIds,
      x ∈ eventKey ⟨eid, some sid, .agent_message_delta d⟩ :: K := by
    intro x hx
    rcases List.mem_cons.mp (dedupAdd_subset _ _ hx) with h | h
    · exact h ▸ List.mem_cons_self _ _
    · exact List.mem_cons_of_mem _ (hkeys x h)
  by_cases hd : d = ""
  · have hpp : cPushStep (acc, buf) d = (acc, buf) := by simp [cPushStep, hd]
    rw [hpp]
    simp only [hd, decide_True, not_true, decide_False, Bool.false_eq_true,
      if_false]
    exact ⟨⟨c, m, hconvs, hcid, hmsgs, hmid, hrole, hstream, hcontent⟩,
      hctrl, rfl, hmidne, hkeys2, hcmdm, hcmdi, hstop⟩
  · simp only [hd, not_false_eq_true, decide_True, if_true, if_pos, hctrl]
    rcases hpc : pushCore buf d with ⟨_ | lines, buf2⟩
    · have hpp : cPushStep (acc, buf) d = (acc, buf2) := by
        simp [cPushStep, hd, hpc]
      rw [hpp]
      simp only [ctrlPush, hpc]
      exact ⟨⟨c, m, hconvs, hcid, hmsgs, hmid, hrole, hstream, hcontent⟩,
        rfl, rfl, hmidne, hkeys2, hcmdm, hcmdi, hstop⟩
    · have hpp : cPushStep (acc, buf) d =
          (sinkAppend acc (String.intercalate "\n" lines), buf2) := by
        simp [cPushStep, hd, hpc]
      rw [hpp]
      simp only [ctrlPush, hpc, sinkInsertLines]
      have hupd : (updateMessage s.store sid mid
          { content := some (sinkAppend acc (String.intercalate "\n" lines)) }
          s.now).conversations =
          [{ c with
              messages := [{ m with
                content := sinkAppend acc (String.intercalate "\n" lines) }]
              updatedAt := s.now }] := by
        simp only [updateMessage, hconvs, List.map_cons, List.map_nil, hcid,
          hmsgs, hmid, eq_self_iff_true, if_true, if_pos, applyUpdate,
          Option.getD_some, Option.getD_none]
      refine ⟨⟨_, _, hupd, ?_, rfl, ?_, ?_, ?_, rfl⟩,
        rfl, rfl, hmidne, hkeys2, hcmdm, hcmdi, hstop⟩
      · exact hcid
      · exact hmid
      · exact hrole
      · exact hstream

theorem deltaKey_length (sid : String) (i : Nat) :
    (deltaKey sid i).length = 22 + i + sid.length := by
  have h1 : ("e" : String).length = 1 := rfl
  have h2 : (String.mk (List.replicate i 'x')).length =
      (List.replicate i 'x').length := rfl
  have h3 : ("-" : String).length = 1 := rfl
  have h4 : ("agent_message_delta" : String).length = 19 := rfl
  simp only [deltaKey, eventKey, deltaIdxId, msgTypeName, optInterp,
    String.length_append, h1, h2, h3, h4, List.length_replicate]
  omega

theorem deltaKey_inj (sid : String) (i j : Nat)
    (h : deltaKey sid i = deltaKey sid j) : i = j := by
  have hl := congrArg String.length h
  rw [deltaKey_length, deltaKey_length] at hl
  omega

theorem stream_run (sid mid : String) (ds : List String) :
    ∀ (i : Nat) (K : List String) (acc buf : String) (s : HookState),
    StreamInv sid mid acc buf K s →
    (∀ j, i ≤ j → deltaKey sid j ∉ K) →
    ∃ K2, StreamInv sid mid (ds.foldl cPushStep (acc, buf)).1
        (ds.foldl cPushStep (acc, buf)).2 K2
        (processEvents sid s (deltaEventsFrom sid i ds)) ∧
      ∀ x ∈ K2, x ∈ K ∨ ∃ j, i ≤ j ∧ j < i + ds.length ∧ x = deltaKey sid j := by
  induction ds with
  | nil =>
      intro i K acc buf s inv _
      exact ⟨K, inv, fun x hx => Or.inl hx⟩
  | cons d ds ih =>
      intro i K acc buf s inv hK
      have hkey : eventKey ⟨deltaIdxId i, some sid, .agent_message_delta d⟩ =
          deltaKey sid i := rfl
      have hfresh : eventKey ⟨deltaIdxId i, some sid, .agent_message_delta d⟩ ∉
          K := by
        rw [hkey]
        exact hK i (Nat.le_refl i)
      have hstep := stream_step sid (deltaIdxId i) d s mid acc buf K inv hfresh
      rw [hkey] at hstep
      have hK2 : ∀ j, i + 1 ≤ j → deltaKey sid j ∉ deltaKey sid i :: K := by
        intro j hj hmem
        rcases List.mem_cons.mp hmem with h | h
        · have := deltaKey_inj sid j i h
          omega
        · exact hK j (by omega) h
      rcases ih (i + 1) (deltaKey sid i :: K)
        (cPushStep (acc, buf) d).1 (cPushStep (acc, buf) d).2 _ hstep hK2 with
        ⟨K2, inv2, hmem2⟩
      refine ⟨K2, ?_, ?_⟩
      · simpa [processEvents, deltaEventsFrom] using inv2
      · intro x hx
        rcases hmem2 x hx with h | ⟨j, hj1, hj2, hj3⟩
        · rcases List.mem_cons.mp h with h | h
          · exact Or.inr ⟨i, Nat.le_refl i, by simp, h⟩
          · exact Or.inl h
        · exact Or.inr ⟨j, by omega, by simp [List.length_cons]; omega, hj3⟩


theorem stream_trace (sid : String) (now : Nat) (d : String) (ds : List String)
    (hsid : sid ≠ "") :
    ∃ K2, StreamInv sid (sid ++ "-stream-" ++ generateUniqueId 0)
        (streamFold (d :: ds)).1 (streamFold (d :: ds)).2 K2
        (processEvents sid (initialHookState now)
          (deltaEventsFrom sid 0 (d :: ds))) ∧
      ∀ x ∈ K2, ∃ j, j < (d :: ds).length ∧ x = deltaKey sid j := by
  have hkey : eventKey ⟨deltaIdxId 0, some sid, .agent_message_delta d⟩ =
      deltaKey sid 0 := rfl
  have hbase := stream_create sid (deltaIdxId 0) d (initialHookState now) []
    hsid (by simp [initialHookState]) (by simp) rfl rfl rfl rfl rfl rfl
  rw [hkey] at hbase
  have hK1 : ∀ j, 1 ≤ j → deltaKey sid j ∉ [deltaKey sid 0] := by
    intro j hj hmem
    rcases List.mem_cons.mp hmem with h | h
    · have := deltaKey_inj sid j 0 h
      omega
    · simp at h
  rcases stream_run sid (sid ++ "-stream-" ++ generateUniqueId 0) ds 1
    [deltaKey sid 0] (cPushStep ("", "") d).1 (cPushStep ("", "") d).2 _
    hbase hK1 with ⟨K2, inv2, hmem2⟩
  refine ⟨K2, ?_, ?_⟩
  · simpa [processEvents, deltaEventsFrom, streamFold] using inv2
  · intro x hx
    rcases hmem2 x hx with h | ⟨j, hj1, hj2, hj3⟩
    · rcases List.mem_cons.mp h with h | h
      · exact ⟨0, by simp, h⟩
      · simp at h
    · exact ⟨j, by simp [List.length_cons]; omega, hj3⟩

theorem finalize_message_step (sid eid full : String) (s : HookState)
    (mid acc buf : String) (K : List String)
    (inv : StreamInv sid mid acc buf K s) (hfull : full ≠ "")
    (hfresh : eventKey ⟨eid, some sid, .agent_message full⟩ ∉ K) :
    (handleCodexEvent sid s ⟨eid, some sid, .agent_message full⟩).store =
      s.store ∧
    (handleCodexEvent sid s ⟨eid, some sid, .agent_message full⟩).streamController =
      .idle ∧
    (handleCodexEvent sid s
        ⟨eid, some sid, .agent_message full⟩).currentStreamingMessageId =
      none := by
  obtain ⟨_, hctrl, hsref, hmidne, hkeys, _, _, _⟩ := inv
  have hmem : eventKey ⟨eid, some sid, .agent_message full⟩ ∉
      s.processedEventIds := fun hx => hfresh (hkeys _ hx)
  have hroute := routesTo_self sid eid (.agent_message full)
  rw [handleCodexEvent]
  simp only [if_neg hmem, hroute, if_true, if_pos]
  simp only [dispatchEvent, hfull, ne_eq, not_false_eq_true, if_true, if_pos,
    hsref, refTruthy, hmidne, decide_True, hctrl, ctrlFinalize,
    Bool.false_and, Bool.false_eq_true, if_false]
  refine ⟨?_, ?_, ?_⟩ <;> trivial


theorem processEvents_append (sid : String) (s : HookState)
    (l1 l2 : List CodexEvent) :
    processEvents sid s (l1 ++ l2) = processEvents sid (processEvents sid s l1) l2 := by
  simp [processEvents, List.foldl_append]

theorem finalMessageKey_length (sid eid full : String) :
    (eventKey ⟨eid, some sid, .agent_message full⟩).length =
      eid.length + 15 + sid.length := by
  have h3 : ("-" : String).length = 1 := rfl
  have h4 : ("agent_message" : String).length = 13 := rfl
  simp only [eventKey, msgTypeName, optInterp, String.length_append, h3, h4]

/-- C1.  Supersession: a sequence of `agent_message_delta` events followed by
a terminal non-empty `agent_message` leaves exactly one assistant transcript
entry for the message (the streamed entry; the `agent_message` event inserts
no entry), that entry has `isStreaming = false`, the stream is finalized
with commit = false (the store is untouched by the finalization, so the
entry content stays the committed streamed content rather than gaining the
uncommitted buffer), and the controller is back in Idle with the streaming
ref cleared. -/
theorem supersession (sid full d : String) (ds : List String) (now : Nat)
    (hsid : sid ≠ "") (hfull : full ≠ "") :
    ∃ c m,
      (processEvents sid (initialHookState now)
        (deltaEventsFrom sid 0 (d :: ds) ++
          [⟨"f", some sid, .agent_message full⟩])).store.conversations = [c] ∧
      c.id = sid ∧ c.messages = [m] ∧ m.role = Role.assistant ∧
      m.isStreaming = false ∧ m.id = sid ++ "-stream-" ++ generateUniqueId 0 ∧
      m.content = (streamFold (d :: ds)).1 ∧
      (processEvents sid (initialHookState now)
        (deltaEventsFrom sid 0 (d :: ds) ++
          [⟨"f", some sid, .agent_message full⟩])).streamController = .idle ∧
      (processEvents sid (initialHookState now)
        (deltaEventsFrom sid 0 (d :: ds) ++
          [⟨"f", some sid, .agent_message full⟩])).currentStreamingMessageId =
        none := by
  rcases stream_trace sid now d ds hsid with ⟨K2, inv, hK2⟩
  have hfreshF : eventKey ⟨"f", some sid, .agent_message full⟩ ∉ K2 := by
    intro hx
    rcases hK2 _ hx with ⟨j, _, hj⟩
    have hl := congrArg String.length hj
    rw [finalMessageKey_length, deltaKey_length] at hl
    have : ("f" : String).length = 1 := rfl
    omega
  have hfin := finalize_message_step sid "f" full _ _ _ _ K2 inv hfull hfreshF
  obtain ⟨c, m, hconvs, hcid, hmsgs, hmid, hrole, hstream, hcontent⟩ := inv.conv
  rw [processEvents_append]
  have hone : processEvents sid (processEvents sid (initialHookState now)
      (deltaEventsFrom sid 0 (d :: ds)))
      [⟨"f", some sid, .agent_message full⟩] =
      handleCodexEvent sid (processEvents sid (initialHookState now)
        (deltaEventsFrom sid 0 (d :: ds)))
        ⟨"f", some sid, .agent_message full⟩ := rfl
  rw [hone, hfin.1]
  exact ⟨c, m, hconvs, hcid, hmsgs, hrole, hstream, hmid, hcontent,
    hfin.2.1, hfin.2.2⟩

/-- Witness for C1 at a concrete input. -/
theorem supersession_witness :
    ∃ c m,
      (processEvents "s1" (initialHookState 0)
        (deltaEventsFrom "s1" 0 ("Hello " :: ["world"]) ++
          [⟨"f", some "s1", .agent_message "Hello world"⟩])).store.conversations =
        [c] ∧
      c.id = "s1" ∧ c.messages = [m] ∧ m.role = Role.assistant ∧
      m.isStreaming = false ∧
      m.id = "s1" ++ "-stream-" ++ generateUniqueId 0 ∧
      m.content = (streamFold ("Hello " :: ["world"])).1 ∧
      (processEvents "s1" (initialHookState 0)
        (deltaEventsFrom "s1" 0 ("Hello " :: ["world"]) ++
          [⟨"f", some "s1", .agent_message "Hello world"⟩])).streamController =
        .idle ∧
      (processEvents "s1" (initialHookState 0)
        (deltaEventsFrom "s1" 0 ("Hello " :: ["world"]) ++
          [⟨"f", some "s1",
            .agent_message "Hello world"⟩])).currentStreamingMessageId = none :=
  supersession "s1" "Hello world" "Hello " ["world"] 0 (by decide) (by decide)

theorem cPushStep_acc_extend (p : String × String) (d : String) :
    ∃ t, (cPushStep p d).1 = p.1 ++ t := by
  by_cases hd : d = ""
  · exact ⟨"", by simp [cPushStep, hd, String.append_empty]⟩
  · rcases hpc : pushCore p.2 d with ⟨_ | lines, buf⟩
    · exact ⟨"", by simp [cPushStep, hd, hpc, String.append_empty]⟩
    · by_cases ha : p.1 = ""
      · refine ⟨String.intercalate "\n" lines, ?_⟩
        simp [cPushStep, hd, hpc, sinkAppend, ha]
      · refine ⟨"\n" ++ String.intercalate "\n" lines, ?_⟩
        simp [cPushStep, hd, hpc, sinkAppend, ha, String.append_assoc]

theorem foldl_cPushStep_acc_extend :
    ∀ (ds : List String) (p : String × String),
    ∃ t, (ds.foldl cPushStep p).1 = p.1 ++ t := by
  intro ds
  induction ds with
  | nil => exact fun p => ⟨"", by simp [String.append_empty]⟩
  | cons d ds ih =>
      intro p
      rcases cPushStep_acc_extend p d with ⟨t0, h0⟩
      rcases ih (cPushStep p d) with ⟨t1, h1⟩
      exact ⟨t0 ++ t1, by
        rw [List.foldl_cons, h1, h0, String.append_assoc]⟩

/-- C2 (amended).  Streaming shows only the committed (newline-completed)
lines: after any sequence of pushes the streaming entry's content equals the
accumulator of the line-committing fold (not the raw concatenation of all
fragments), the shown content is never truncated (each further push only
extends it), and for the newline-free fragments of the claim's example the
shown content stays empty while streaming. -/
theorem streaming_monotonicity_amended :
    (∀ (sid : String) (now : Nat) (d : String) (ds : List String), sid ≠ "" →
      streamContent sid now (d :: ds) = (streamFold (d :: ds)).1) ∧
    (∀ (ds1 ds2 : List String), ∃ t,
      (streamFold (ds1 ++ ds2)).1 = (streamFold ds1).1 ++ t) ∧
    (streamFold ["Hel", "lo ", " world"]).1 = "" := by
  refine ⟨?_, ?_, by decide⟩
  · intro sid now d ds hsid
    rcases stream_trace sid now d ds hsid with ⟨K2, inv, _⟩
    obtain ⟨c, m, hconvs, hcid, hmsgs, _, _, _, hcontent⟩ := inv.conv
    unfold streamContent
    rw [show findConv (processEvents sid (initialHookState now)
        (deltaEventsFrom sid 0 (d :: ds))).store sid = some c from by
      unfold findConv
      rw [hconvs]
      simp [List.find?_cons, hcid]]
    simp [hmsgs, hcontent]
  · intro ds1 ds2
    rcases foldl_cPushStep_acc_extend ds2 (streamFold ds1) with ⟨t, ht⟩
    exact ⟨t, by rw [streamFold, streamFold, List.foldl_append] at *; exact ht⟩

/-- C2 counterexample: with fragments ["Hel", "lo "] the streaming entry's
content after the first and after the second push is empty, not the
concatenation of the fragments delivered so far. -/
theorem streaming_monotonicity_counterexample :
    streamContent "s1" 0 ["Hel"] = "" ∧ ("" : String) ≠ "Hel" ∧
    streamContent "s1" 0 ["Hel", "lo "] = "" ∧ ("" : String) ≠ "Hello " := by
  refine ⟨by decide, by decide, by decide, by decide⟩

/-- Witness for C2 (amended) at concrete inputs. -/
theorem streaming_monotonicity_amended_witness :
    streamContent "s1" 0 ("Hel" :: ["lo "]) = (streamFold ("Hel" :: ["lo "])).1 ∧
    ∃ t, (streamFold (["a\n"] ++ ["b"])).1 = (streamFold ["a\n"]).1 ++ t :=
  ⟨streaming_monotonicity_amended.1 "s1" 0 "Hel" ["lo "] (by decide),
   streaming_monotonicity_amended.2.1 ["a\n"] ["b"]⟩


theorem abort_step (sid eid : String) (reason : Option String) (s : HookState)
    (mid acc buf : String) (K : List String)
    (inv : StreamInv sid mid acc buf K s)
    (hfresh : eventKey ⟨eid, some sid, .turn_aborted reason⟩ ∉ K) :
    ∃ c m ma,
      (handleCodexEvent sid s
        ⟨eid, some sid, .turn_aborted reason⟩).store.conversations = [c] ∧
      c.id = sid ∧ c.messages = [m, ma] ∧
      m.id = mid ∧ m.role = Role.assistant ∧
      ma.role = Role.system ∧ ma.title = some "🛑 Turn Stopped" ∧
      (∀ r, reason = some r → r ≠ "" → ma.content = "Reason: " ++ r) ∧
      ((reason = none ∨ reason = some "") →
        ma.content = "The current turn has been aborted.") ∧
      ma.eventType = some "turn_aborted" ∧
      c.isLoading = false ∧
      (handleCodexEvent sid s
        ⟨eid, some sid, .turn_aborted reason⟩).streamController = .idle ∧
      (handleCodexEvent sid s
        ⟨eid, some sid, .turn_aborted reason⟩).currentStreamingMessageId =
        none ∧
      (handleCodexEvent sid s
        ⟨eid, some sid, .turn_aborted reason⟩).currentCommandMessageId = none ∧
      (handleCodexEvent sid s
        ⟨eid, some sid, .turn_aborted reason⟩).currentCommandInfo = none ∧
      (handleCodexEvent sid s
        ⟨eid, some sid, .turn_aborted reason⟩).stopSignals =
        s.stopSignals + 1 := by
  obtain ⟨⟨c, m, hconvs, hcid, hmsgs, hmid, hrole, hstream, hcontent⟩,
    hctrl, hsref, hmidne, hkeys, hcmdm, hcmdi, hstop⟩ := inv
  have hmem : eventKey ⟨eid, some sid, .turn_aborted reason⟩ ∉
      s.processedEventIds := fun hx => hfresh (hkeys _ hx)
  have hroute := routesTo_self sid eid (.turn_aborted reason)
  obtain ⟨store, ctrl, srefv, cmdmv, cmdiv, ltd, pids, tds, stopv, nid, nowv⟩ := s
  obtain ⟨convs, ccid, pui, pnc, cf⟩ := store
  dsimp only at hconvs hctrl hsref hcmdm hcmdi hstop hkeys hmem hmsgs ⊢
  subst hconvs hctrl hsref hcmdm hcmdi hstop
  rw [handleCodexEvent]
  simp only [if_neg hmem, hroute, if_true, if_pos]
  simp only [dispatchEvent, addMessageToStore, List.find?_cons, hcid,
    eq_self_iff_true, if_true, if_pos, decide_True, Option.isSome_some,
    addMessage, List.map_cons, List.map_nil, setSessionLoading, refTruthy,
    hmidne, ne_eq, not_false_eq_true, ctrlFinalize, Bool.false_and,
    Bool.false_eq_true, if_false, Bool.not_true, decide_False, hmsgs,
    List.singleton_append]
  refine ⟨_, m, _, rfl, rfl, rfl, hmid, hrole, rfl, rfl, ?_, ?_, rfl, rfl,
    trivial, trivial, trivial, trivial, trivial⟩
  · intro r hr hne
    subst hr
    simp [toStoreMessage, hne]
  · rintro (h | h) <;> subst h <;> simp [toStoreMessage]


theorem eventKey_length (id sid : String) (m : MsgPayload) :
    (eventKey ⟨id, some sid, m⟩).length =
      id.length + 2 + (msgTypeName m).length + sid.length := by
  have h1 : ("-" : String).length = 1 := rfl
  simp only [eventKey, optInterp, String.length_append, h1]
  omega

theorem eventKey_len_ne (id1 id2 sid : String) (m1 m2 : MsgPayload)
    (h : id1.length + (msgTypeName m1).length ≠
      id2.length + (msgTypeName m2).length) :
    eventKey ⟨id1, some sid, m1⟩ ≠ eventKey ⟨id2, some sid, m2⟩ := by
  intro he
  have hl := congrArg String.length he
  rw [eventKey_length, eventKey_length] at hl
  omega

/-- C6.  Abort cleanup: after task_started, two agent_message_delta events
and a turn_aborted, the session's loading flag is false, the stream
controller is Idle, the streaming ref and the exec-tracking pointers are
cleared, exactly one additional system entry describing the abort (with its
reason when present) has been appended after the streamed assistant entry,
and the stop-streaming signal has been emitted exactly once. -/
theorem abort_cleanup (sid d1 d2 : String) (reason : Option String) (now : Nat)
    (hsid : sid ≠ "") :
    ∃ c m ma,
      (processEvents sid (initialHookState now)
        [⟨"a", some sid, .task_started⟩,
         ⟨"bb", some sid, .agent_message_delta d1⟩,
         ⟨"ccc", some sid, .agent_message_delta d2⟩,
         ⟨"dddd", some sid, .turn_aborted reason⟩]).store.conversations = [c] ∧
      c.id = sid ∧ c.messages = [m, ma] ∧ m.role = Role.assistant ∧
      ma.role = Role.system ∧ ma.title = some "🛑 Turn Stopped" ∧
      (∀ r, reason = some r → r ≠ "" → ma.content = "Reason: " ++ r) ∧
      ((reason = none ∨ reason = some "") →
        ma.content = "The current turn has been aborted.") ∧
      c.isLoading = false ∧
      (processEvents sid (initialHookState now)
        [⟨"a", some sid, .task_started⟩,
         ⟨"bb", some sid, .agent_message_delta d1⟩,
         ⟨"ccc", some sid, .agent_message_delta d2⟩,
         ⟨"dddd", some sid, .turn_aborted reason⟩]).streamController = .idle ∧
      (processEvents sid (initialHookState now)
        [⟨"a", some sid, .task_started⟩,
         ⟨"bb", some sid, .agent_message_delta d1⟩,
         ⟨"ccc", some sid, .agent_message_delta d2⟩,
         ⟨"dddd", some sid,
           .turn_aborted reason⟩]).currentStreamingMessageId = none ∧
      (processEvents sid (initialHookState now)
        [⟨"a", some sid, .task_started⟩,
         ⟨"bb", some sid, .agent_message_delta d1⟩,
         ⟨"ccc", some sid, .agent_message_delta d2⟩,
         ⟨"dddd", some sid,
           .turn_aborted reason⟩]).currentCommandMessageId = none ∧
      (processEvents sid (initialHookState now)
        [⟨"a", some sid, .task_started⟩,
         ⟨"bb", some sid, .agent_message_delta d1⟩,
         ⟨"ccc", some sid, .agent_message_delta d2⟩,
         ⟨"dddd", some sid, .turn_aborted reason⟩]).currentCommandInfo = none ∧
      (processEvents sid (initialHookState now)
        [⟨"a", some sid, .task_started⟩,
         ⟨"bb", some sid, .agent_message_delta d1⟩,
         ⟨"ccc", some sid, .agent_message_delta d2⟩,
         ⟨"dddd", some sid, .turn_aborted reason⟩]).stopSignals = 1 := by
  have h1 : handleCodexEvent sid (initialHookState now)
      ⟨"a", some sid, .task_started⟩ =
      { initialHookState now with
          processedEventIds := [eventKey ⟨"a", some sid, .task_started⟩] } := by
    simp [handleCodexEvent, initialHookState, routesTo_self, dispatchEvent,
      setSessionLoading, ctrlClearAll, dedupAdd, initialStore]
  have hfresh1 : eventKey ⟨"bb", some sid, .agent_message_delta d1⟩ ∉
      [eventKey ⟨"a", some sid, .task_started⟩] := by
    intro hmem
    rcases List.mem_cons.mp hmem with h | h
    · exact eventKey_len_ne "bb" "a" sid (.agent_message_delta d1) .task_started (Nat.ne_of_beq_eq_false rfl) h
    · simp at h
  have hinv1 := stream_create sid "bb" d1
    ({ initialHookState now with
        processedEventIds := [eventKey ⟨"a", some sid, .task_started⟩] })
    [eventKey ⟨"a", some sid, .task_started⟩]
    hsid (fun x hx => hx) hfresh1 rfl rfl rfl rfl rfl rfl
  have hfresh2 : eventKey ⟨"ccc", some sid, .agent_message_delta d2⟩ ∉
      eventKey ⟨"bb", some sid, .agent_message_delta d1⟩ ::
        [eventKey ⟨"a", some sid, .task_started⟩] := by
    intro hmem
    rcases List.mem_cons.mp hmem with h | h
    · exact eventKey_len_ne "ccc" "bb" sid (.agent_message_delta d2) (.agent_message_delta d1) (Nat.ne_of_beq_eq_false rfl) h
    · rcases List.mem_cons.mp h with h | h
      · exact eventKey_len_ne "ccc" "a" sid (.agent_message_delta d2) .task_started (Nat.ne_of_beq_eq_false rfl) h
      · simp at h
  have hinv2 := stream_step sid "ccc" d2 _ _ _ _ _ hinv1 hfresh2
  have hfresh3 : eventKey ⟨"dddd", some sid, .turn_aborted reason⟩ ∉
      eventKey ⟨"ccc", some sid, .agent_message_delta d2⟩ ::
        eventKey ⟨"bb", some sid, .agent_message_delta d1⟩ ::
          [eventKey ⟨"a", some sid, .task_started⟩] := by
    intro hmem
    rcases List.mem_cons.mp hmem with h | h
    · exact eventKey_len_ne "dddd" "ccc" sid (.turn_aborted reason) (.agent_message_delta d2) (Nat.ne_of_beq_eq_false rfl) h
    · rcases List.mem_cons.mp h with h | h
      · exact eventKey_len_ne "dddd" "bb" sid (.turn_aborted reason) (.agent_message_delta d1) (Nat.ne_of_beq_eq_false rfl) h
      · rcases List.mem_cons.mp h with h | h
        · exact eventKey_len_ne "dddd" "a" sid (.turn_aborted reason) .task_started (Nat.ne_of_beq_eq_false rfl) h
        · simp at h
  have hst := hinv2.stop
  have habort := abort_step sid "dddd" reason _ _ _ _ _ hinv2 hfresh3
  rw [hst] at habort
  have hchain : processEvents sid (initialHookState now)
      [⟨"a", some sid, .task_started⟩,
       ⟨"bb", some sid, .agent_message_delta d1⟩,
       ⟨"ccc", some sid, .agent_message_delta d2⟩,
       ⟨"dddd", some sid, .turn_aborted reason⟩] =
      handleCodexEvent sid
        (handleCodexEvent sid
          (handleCodexEvent sid
            (handleCodexEvent sid (initialHookState now)
              ⟨"a", some sid, .task_started⟩)
            ⟨"bb", some sid, .agent_message_delta d1⟩)
          ⟨"ccc", some sid, .agent_message_delta d2⟩)
        ⟨"dddd", some sid, .turn_aborted reason⟩ := rfl
  rw [hchain, h1]
  obtain ⟨c, m, ma, hc1, hc2, hc3, _, hc5, hc6, hc7, hc8, hc9, _, hc11,
    hc12, hc13, hc14, hc15, hc16⟩ := habort
  exact ⟨c, m, ma, hc1, hc2, hc3, hc5, hc6, hc7, hc8, hc9, hc11, hc12, hc13,
    hc14, hc15, hc16⟩


theorem error_step (sid eid msgText : String) (s : HookState)
    (mid acc buf : String) (K : List String)
    (inv : StreamInv sid mid acc buf K s)
    (hfresh : eventKey ⟨eid, some sid, .error msgText⟩ ∉ K) :
    ∃ c m me,
      (handleCodexEvent sid s
        ⟨eid, some sid, .error msgText⟩).store.conversations = [c] ∧
      c.id = sid ∧ c.messages = [m, me] ∧
      m.id = mid ∧ m.role = Role.assistant ∧
      m.content = (if buf = "" then acc else sinkAppend acc buf) ∧
      me.role = Role.system ∧ me.content = "Error: " ++ msgText ∧
      me.eventType = some "error" ∧ c.isLoading = false ∧
      (handleCodexEvent sid s
        ⟨eid, some sid, .error msgText⟩).streamController = .idle ∧
      (handleCodexEvent sid s
        ⟨eid, some sid, .error msgText⟩).currentStreamingMessageId = none := by
  obtain ⟨⟨c, m, hconvs, hcid, hmsgs, hmid, hrole, hstream, hcontent⟩,
    hctrl, hsref, hmidne, hkeys, hcmdm, hcmdi, hstop⟩ := inv
  have hmem : eventKey ⟨eid, some sid, .error msgText⟩ ∉
      s.processedEventIds := fun hx => hfresh (hkeys _ hx)
  have hroute := routesTo_self sid eid (.error msgText)
  obtain ⟨store, ctrl, srefv, cmdmv, cmdiv, ltd, pids, tds, stopv, nid, nowv⟩ := s
  obtain ⟨convs, ccid, pui, pnc, cf⟩ := store
  dsimp only at hconvs hctrl hsref hcmdm hcmdi hstop hkeys hmem hmsgs ⊢
  subst hconvs hctrl hsref hcmdm hcmdi hstop
  rw [handleCodexEvent]
  simp only [if_neg hmem, hroute, if_true, if_pos]
  by_cases hbuf : buf = ""
  · simp only [dispatchEvent, refTruthy, hmidne, ne_eq, not_false_eq_true,
      decide_True, if_true, if_pos, ctrlFinalize, hbuf, Bool.and_false,
      Bool.false_eq_true, if_false, not_true, decide_False,
      addMessageToStore, List.find?_cons, hcid, eq_self_iff_true,
      Option.isSome_some, addMessage, List.map_cons, List.map_nil,
      setSessionLoading, hmsgs, List.singleton_append, Bool.and_self]
    refine ⟨_, m, _, rfl, rfl, rfl, hmid, hrole, ?_, rfl, rfl, rfl, rfl,
      trivial, trivial⟩
    simpa using hcontent
  · simp only [dispatchEvent, refTruthy, hmidne, ne_eq, not_false_eq_true,
      decide_True, if_true, if_pos, ctrlFinalize, hbuf, Bool.and_true,
      Bool.true_and, sinkInsertLines, updateMessage, applyUpdate,
      List.map_cons, List.map_nil, hcid, hmsgs, hmid, eq_self_iff_true,
      Option.getD_some, Option.getD_none,
      addMessageToStore, List.find?_cons, Option.isSome_some, addMessage,
      setSessionLoading, List.singleton_append]
    have hsing : String.intercalate "\n" [buf] = buf := rfl
    refine ⟨_, _, _, rfl, rfl, rfl, rfl, hrole, ?_, rfl, rfl, rfl, rfl,
      trivial, trivial⟩
    simp [hsing]


theorem findConv_setSessionLoading (st : StoreState) (sid : String) (b : Bool)
    (x : String) :
    findConv (setSessionLoading st sid b) x =
      (findConv st x).map
        (fun c => if c.id = sid then { c with isLoading := b } else c) := by
  set f : Conversation → Conversation :=
    fun c => if c.id = sid then { c with isLoading := b } else c with hf
  have hfid : ∀ c, (f c).id = c.id := by
    intro c
    rw [hf]
    dsimp only
    split <;> rfl
  show (st.conversations.map f).find? (fun c => c.id = x) = _
  exact find?_map_comm f (fun c => c.id = x) (fun a => by simp [hfid a]) _

theorem addMessageToStore_findConv_isSome (s : HookState) (sid : String)
    (m : ChatMessage) (hsid : sid ≠ "") :
    (findConv (addMessageToStore s sid m).store sid).isSome = true := by
  have h := convMessages_addMessageToStore s sid m hsid
  by_contra hns
  have hnone : findConv (addMessageToStore s sid m).store sid = none :=
    Option.not_isSome_iff_eq_none.mp (by simpa using hns)
  rw [convMessages, hnone] at h
  simp at h

theorem error_no_stream (sid eid msgText : String) (s : HookState)
    (hsid : sid ≠ "")
    (href : refTruthy s.currentStreamingMessageId = false)
    (hctrl : s.streamController = .idle)
    (hfresh : eventKey ⟨eid, some sid, .error msgText⟩ ∉ s.processedEventIds) :
    ∃ me,
      convMessages (handleCodexEvent sid s ⟨eid, some sid, .error msgText⟩) sid =
        convMessages s sid ++ [me] ∧ me.role = Role.system ∧
      me.content = "Error: " ++ msgText ∧
      (findConv (handleCodexEvent sid s
          ⟨eid, some sid, .error msgText⟩).store sid).map
        (fun c => c.isLoading) = some false ∧
      (handleCodexEvent sid s
        ⟨eid, some sid, .error msgText⟩).streamController = .idle := by
  have hroute := routesTo_self sid eid (.error msgText)
  have h1 : handleCodexEvent sid s ⟨eid, some sid, .error msgText⟩ = dispatchEvent sid { s with processedEventIds := dedupAdd (eventKey ⟨eid, some sid, .error msgText⟩) s.processedEventIds } ⟨eid, some sid, .error msgText⟩ := by
    simp [handleCodexEvent, hfresh, hroute]
  set s1 : HookState := { s with processedEventIds := dedupAdd (eventKey ⟨eid, some sid, .error msgText⟩) s.processedEventIds } with hs1
  have href1 : refTruthy s1.currentStreamingMessageId = false := href
  have h2 : dispatchEvent sid s1 ⟨eid, some sid, .error msgText⟩ = { addMessageToStore { s1 with nextId := s1.nextId + 1 } sid { id := sid ++ "-error-" ++ generateUniqueId s1.nextId, role := .system, content := "Error: " ++ msgText, timestamp := s1.now, eventType := some "error" } with store := setSessionLoading (addMessageToStore { s1 with nextId := s1.nextId + 1 } sid { id := sid ++ "-error-" ++ generateUniqueId s1.nextId, role := .system, content := "Error: " ++ msgText, timestamp := s1.now, eventType := some "error" }).store sid false } := by
    simp only [dispatchEvent, href1, Bool.false_eq_true, if_false]
  rw [h1, h2]
  set em : ChatMessage := { id := sid ++ "-error-" ++ generateUniqueId s1.nextId, role := .system, content := "Error: " ++ msgText, timestamp := s1.now, eventType := some "error" } with hem
  set s2 : HookState := addMessageToStore { s1 with nextId := s1.nextId + 1 } sid em with hs2
  have hsome : (findConv s2.store sid).isSome = true := by
    rw [hs2]
    exact addMessageToStore_findConv_isSome { s1 with nextId := s1.nextId + 1 } sid em hsid
  rcases Option.isSome_iff_exists.mp hsome with ⟨c2, hc2⟩
  have hc2id : c2.id = sid := by
    have := List.find?_some hc2
    simpa using this
  have hmsg : convMessages s2 sid = convMessages s sid ++ [toStoreMessage em] := by
    rw [hs2]
    exact convMessages_addMessageToStore { s1 with nextId := s1.nextId + 1 } sid em hsid
  refine ⟨toStoreMessage em, ?_, by simp [toStoreMessage, hem], by simp [toStoreMessage, hem], ?_, hctrl⟩
  · show convMessages { s2 with store := setSessionLoading s2.store sid false } sid = _
    rw [convMessages]
    show ((findConv (setSessionLoading s2.store sid false) sid).map (fun c => c.messages)).getD [] = _
    rw [findConv_setSessionLoading, hc2]
    have hmsg2 : c2.messages = convMessages s sid ++ [toStoreMessage em] := by
      rw [convMessages, hc2] at hmsg
      simpa using hmsg
    simp [hc2id, hmsg2]
  · show ((findConv (setSessionLoading s2.store sid false) sid).map (fun c => c.isLoading)) = some false
    rw [findConv_setSessionLoading, hc2]
    simp [hc2id]

/-- C7.  (amended) Error surfacing: a backend error event finalizes any open
stream with commit = true (the streamed entry keeps the committed content,
extended by the uncommitted buffer when that buffer is non-empty), appends a
visible system transcript entry whose content is the error text prefixed by
"Error: " (not the error text verbatim), and sets the session loading flag
to false.  Stated for an open-stream trace from a fresh mount (first
conjunct) and for an arbitrary state with no open stream (second
conjunct). -/
theorem error_surfacing_amended :
    (∀ (sid d msgText : String) (ds : List String) (now : Nat), sid ≠ "" →
      ∃ c m me,
        (processEvents sid (initialHookState now)
          (deltaEventsFrom sid 0 (d :: ds) ++
            [⟨"f", some sid, .error msgText⟩])).store.conversations = [c] ∧
        c.id = sid ∧ c.messages = [m, me] ∧
        m.id = sid ++ "-stream-" ++ generateUniqueId 0 ∧
        m.role = Role.assistant ∧
        m.content = (if (streamFold (d :: ds)).2 = ""
          then (streamFold (d :: ds)).1
          else sinkAppend (streamFold (d :: ds)).1 (streamFold (d :: ds)).2) ∧
        me.role = Role.system ∧ me.content = "Error: " ++ msgText ∧
        me.eventType = some "error" ∧ c.isLoading = false ∧
        (processEvents sid (initialHookState now)
          (deltaEventsFrom sid 0 (d :: ds) ++
            [⟨"f", some sid, .error msgText⟩])).streamController = .idle ∧
        (processEvents sid (initialHookState now)
          (deltaEventsFrom sid 0 (d :: ds) ++
            [⟨"f", some sid,
              .error msgText⟩])).currentStreamingMessageId = none) ∧
    (∀ (sid eid msgText : String) (s : HookState), sid ≠ "" →
      refTruthy s.currentStreamingMessageId = false →
      s.streamController = .idle →
      eventKey ⟨eid, some sid, .error msgText⟩ ∉ s.processedEventIds →
      ∃ me,
        convMessages (handleCodexEvent sid s
          ⟨eid, some sid, .error msgText⟩) sid =
          convMessages s sid ++ [me] ∧ me.role = Role.system ∧
        me.content = "Error: " ++ msgText ∧
        (findConv (handleCodexEvent sid s
            ⟨eid, some sid, .error msgText⟩).store sid).map
          (fun c => c.isLoading) = some false ∧
        (handleCodexEvent sid s
          ⟨eid, some sid, .error msgText⟩).streamController = .idle) := by
  constructor
  · intro sid d msgText ds now hsid
    rcases stream_trace sid now d ds hsid with ⟨K2, inv, hK2⟩
    have hfreshF : eventKey ⟨"f", some sid, .error msgText⟩ ∉ K2 := by
      intro hx
      rcases hK2 _ hx with ⟨j, _, hj⟩
      have hl := congrArg String.length hj
      rw [eventKey_length, deltaKey_length] at hl
      have h5 : (msgTypeName (.error msgText)).length = 5 := rfl
      have hf : ("f" : String).length = 1 := rfl
      omega
    have herr := error_step sid "f" msgText _ _ _ _ K2 inv hfreshF
    rw [processEvents_append]
    have hone : processEvents sid (processEvents sid (initialHookState now)
        (deltaEventsFrom sid 0 (d :: ds)))
        [⟨"f", some sid, .error msgText⟩] =
        handleCodexEvent sid (processEvents sid (initialHookState now)
          (deltaEventsFrom sid 0 (d :: ds)))
          ⟨"f", some sid, .error msgText⟩ := rfl
    rw [hone]
    rcases herr with ⟨c, m, me, h1, h2, h3, h4, h5, h6, h7, h8, h9, h10,
      h11, h12⟩
    exact ⟨c, m, me, h1, h2, h3, h4, h5, h6, h7, h8, h9, h10, h11, h12⟩
  · intro sid eid msgText s hsid href hctrl hfresh
    exact error_no_stream sid eid msgText s hsid href hctrl hfresh

/-- C7 counterexample to the claim as stated: from a fresh mount, an error
event with text "boom" yields a system entry whose content is
"Error: boom", not the error text "boom" verbatim. -/
theorem error_surfacing_counterexample :
    (convMessages (handleCodexEvent "s1" (initialHookState 0)
        ⟨"e1", some "s1", .error "boom"⟩) "s1").map (fun m => m.content) =
      ["Error: boom"] ∧ ("Error: boom" : String) ≠ "boom" := by
  constructor
  · decide
  · decide

/-- Witness for C7 at concrete inputs: both the open-stream and the
no-open-stream conjuncts applied at session "s1". -/
theorem error_surfacing_amended_witness :
    (∃ c m me,
      (processEvents "s1" (initialHookState 0)
        (deltaEventsFrom "s1" 0 ("Hi\n" :: ["there"]) ++
          [⟨"f", some "s1", .error "boom"⟩])).store.conversations = [c] ∧
      c.id = "s1" ∧ c.messages = [m, me] ∧
      m.id = "s1" ++ "-stream-" ++ generateUniqueId 0 ∧
      m.role = Role.assistant ∧
      m.content = (if (streamFold ("Hi\n" :: ["there"])).2 = ""
        then (streamFold ("Hi\n" :: ["there"])).1
        else sinkAppend (streamFold ("Hi\n" :: ["there"])).1
          (streamFold ("Hi\n" :: ["there"])).2) ∧
      me.role = Role.system ∧ me.content = "Error: " ++ "boom" ∧
      me.eventType = some "error" ∧ c.isLoading = false ∧
      (processEvents "s1" (initialHookState 0)
        (deltaEventsFrom "s1" 0 ("Hi\n" :: ["there"]) ++
          [⟨"f", some "s1", .error "boom"⟩])).streamController = .idle ∧
      (processEvents "s1" (initialHookState 0)
        (deltaEventsFrom "s1" 0 ("Hi\n" :: ["there"]) ++
          [⟨"f", some "s1",
            .error "boom"⟩])).currentStreamingMessageId = none) ∧
    (∃ me,
      convMessages (handleCodexEvent "s2" (initialHookState 0)
        ⟨"e1", some "s2", .error "oops"⟩) "s2" =
        convMessages (initialHookState 0) "s2" ++ [me] ∧
      me.role = Role.system ∧
      me.content = "Error: " ++ "oops" ∧
      (findConv (handleCodexEvent "s2" (initialHookState 0)
          ⟨"e1", some "s2", .error "oops"⟩).store "s2").map
        (fun c => c.isLoading) = some false ∧
      (handleCodexEvent "s2" (initialHookState 0)
        ⟨"e1", some "s2", .error "oops"⟩).streamController = .idle) :=
  ⟨error_surfacing_amended.1 "s1" "Hi\n" "boom" ["there"] 0 (by decide),
   error_surfacing_amended.2 "s2" "e1" "oops" (initialHookState 0)
     (by decide) rfl rfl (by simp [initialHookState])⟩

/-- Witness for C6 at concrete inputs. -/
theorem abort_cleanup_witness :
    ∃ c m ma,
      (processEvents "s1" (initialHookState 0)
        [⟨"a", some "s1", .task_started⟩,
         ⟨"bb", some "s1", .agent_message_delta "x"⟩,
         ⟨"ccc", some "s1", .agent_message_delta "y"⟩,
         ⟨"dddd", some "s1",
           .turn_aborted (some "user")⟩]).store.conversations = [c] ∧
      c.id = "s1" ∧ c.messages = [m, ma] ∧ m.role = Role.assistant ∧
      ma.role = Role.system ∧ ma.title = some "🛑 Turn Stopped" ∧
      (∀ r, (some "user" : Option String) = some r → r ≠ "" →
        ma.content = "Reason: " ++ r) ∧
      (((some "user" : Option String) = none ∨
          (some "user" : Option String) = some "") →
        ma.content = "The current turn has been aborted.") ∧
      c.isLoading = false ∧
      (processEvents "s1" (initialHookState 0)
        [⟨"a", some "s1", .task_started⟩,
         ⟨"bb", some "s1", .agent_message_delta "x"⟩,
         ⟨"ccc", some "s1", .agent_message_delta "y"⟩,
         ⟨"dddd", some "s1",
           .turn_aborted (some "user")⟩]).streamController = .idle ∧
      (processEvents "s1" (initialHookState 0)
        [⟨"a", some "s1", .task_started⟩,
         ⟨"bb", some "s1", .agent_message_delta "x"⟩,
         ⟨"ccc", some "s1", .agent_message_delta "y"⟩,
         ⟨"dddd", some "s1",
           .turn_aborted (some "user")⟩]).currentStreamingMessageId = none ∧
      (processEvents "s1" (initialHookState 0)
        [⟨"a", some "s1", .task_started⟩,
         ⟨"bb", some "s1", .agent_message_delta "x"⟩,
         ⟨"ccc", some "s1", .agent_message_delta "y"⟩,
         ⟨"dddd", some "s1",
           .turn_aborted (some "user")⟩]).currentCommandMessageId = none ∧
      (processEvents "s1" (initialHookState 0)
        [⟨"a", some "s1", .task_started⟩,
         ⟨"bb", some "s1", .agent_message_delta "x"⟩,
         ⟨"ccc", some "s1", .agent_message_delta "y"⟩,
         ⟨"dddd", some "s1",
           .turn_aborted (some "user")⟩]).currentCommandInfo = none ∧
      (processEvents "s1" (initialHookState 0)
        [⟨"a", some "s1", .task_started⟩,
         ⟨"bb", some "s1", .agent_message_delta "x"⟩,
         ⟨"ccc", some "s1", .agent_message_delta "y"⟩,
         ⟨"dddd", some "s1",
           .turn_aborted (some "user")⟩]).stopSignals = 1 :=
  abort_cleanup "s1" "x" "y" (some "user") 0 (by decide)

end Codexia
